import Mathlib

/-!
# Verification of the actFileTool track-metrics pipeline

Shallow embedding of the computational core of the tool's main file
(cleanup, trimming, moving-average smoothing, grade limiting, elevation
reconciliation, aggregation, great-circle distance) together with proofs
and refutations of the specification's claims about those passes.

C `double` values are modelled as exact rationals (`ℚ`), except for the
Haversine distance where the transcendental functions force a model over
the reals. C `int` values are modelled as `ℤ`. The intrusive doubly
linked `TAILQ` list of track points is modelled as a `List TrkPt`;
the pairwise sweeps (previous point `p1`, current point `p2`) become
structural recursions carrying the previous point, with point removal
(`remTrkPt`) dropping the current element and keeping `p1` unchanged,
exactly as `nxtTrkPt`/`remTrkPt` do in the C source.
-/

namespace ActFileTool

/-- `nilElev` from const.c: sentinel for an unset elevation value. -/
def nilElev : ℚ := -999999/100

/-- `nilGrade` from const.c: sentinel for an unset grade/slope value. -/
def nilGrade : ℚ := -9999/100

/-- `nilSpeed` from const.c: sentinel for an unset speed value. -/
def nilSpeed : ℚ := 999999/100

/-- Moving-average method (`XmaMethod` in defs.h). -/
inductive XmaMethod where
  | simple
  | weighed
deriving DecidableEq

/-- Metric smoothed by the moving average (`XmaMetric` in defs.h,
in the revision that supports elevation, grade, power and speed). -/
inductive XmaMetric where
  | elevation
  | grade
  | power
  | speed
deriving DecidableEq

/-- One GPS track point (`TrkPt` in defs.h).  Only the fields read or
written by the verified passes are kept; provenance fields (`inFile`,
`lineNum`) feed diagnostics only and are dropped. -/
structure TrkPt where
  index : ℤ
  timestamp : ℚ
  latitude : ℚ
  longitude : ℚ
  elevation : ℚ
  ambTemp : ℤ
  cadence : ℤ
  heartRate : ℤ
  power : ℤ
  speed : ℚ
  distance : ℚ
  adjGrade : Bool
  deltaT : ℚ
  dist : ℚ
  rise : ℚ
  run : ℚ
  bearing : ℚ
  grade : ℚ
  deltaG : ℚ
deriving DecidableEq

/-- The command-line configuration consumed by the pipeline
(the relevant fields of `CmdArgs` in defs.h). -/
structure CmdArgs where
  closeGap : ℤ
  maxGrade : ℚ
  maxGradeChange : ℚ
  minGrade : ℚ
  noElevAdj : Bool
  quiet : Bool
  rangeFrom : ℤ
  rangeTo : ℤ
  setSpeed : ℚ
  xmaMethod : XmaMethod
  xmaMetric : XmaMetric
  xmaWindow : ℤ
  startTime : ℚ
  trimFrom : ℤ
  trimTo : ℤ
  verbatim : Bool
deriving DecidableEq

/-- `pointWithinRange` from main.c: either no range is configured
(`rangeFrom == 0`) or the point's index lies in `[rangeFrom, rangeTo]`. -/
def pointWithinRange (pArgs : CmdArgs) (p : TrkPt) : Bool :=
  if pArgs.rangeFrom = 0 then
    true
  else if pArgs.rangeFrom ≤ p.index ∧ p.index ≤ pArgs.rangeTo then
    true
  else
    false

/-- `adjMaxGrade` from main.c: override the grade with the configured
maximum and flag the point as grade-adjusted. -/
def adjMaxGrade (pArgs : CmdArgs) (p2 : TrkPt) : TrkPt :=
  { p2 with grade := pArgs.maxGrade, adjGrade := true }

/-- `adjMinGrade` from main.c: override the grade with the configured
minimum and flag the point as grade-adjusted. -/
def adjMinGrade (pArgs : CmdArgs) (p2 : TrkPt) : TrkPt :=
  { p2 with grade := pArgs.minGrade, adjGrade := true }

/-- `adjGradeChange` from main.c: move the grade to
`p1.grade ± maxGradeChange`, the sign chosen by comparing the current
grades, and flag the point as grade-adjusted. -/
def adjGradeChange (pArgs : CmdArgs) (p1 p2 : TrkPt) : TrkPt :=
  { p2 with
    grade :=
      if p2.grade > p1.grade then p1.grade + pArgs.maxGradeChange
      else p1.grade - pArgs.maxGradeChange,
    adjGrade := true }

/-- Body of the `limitGrade` loop from main.c for one current point
`p2` with previous point `p1`: inside the configured range, clamp to
the configured max grade, then to the configured min grade, then apply
the max-grade-change limit (which tests the stale `deltaG` computed by
`compMetrics`). -/
def limitGradeStep (pArgs : CmdArgs) (p1 p2 : TrkPt) : TrkPt :=
  if pointWithinRange pArgs p2 then
    let p2a := if pArgs.maxGrade ≠ nilGrade ∧ p2.grade > pArgs.maxGrade then
                 adjMaxGrade pArgs p2 else p2
    let p2b := if pArgs.minGrade ≠ nilGrade ∧ p2a.grade < pArgs.minGrade then
                 adjMinGrade pArgs p2a else p2a
    if pArgs.maxGradeChange ≠ 0 ∧ p2b.deltaG > pArgs.maxGradeChange then
      adjGradeChange pArgs p1 p2b
    else p2b
  else p2

/-- Tail of the `limitGrade` sweep: the previous point `p1` carries the
adjustments already made to it, exactly as in the linked-list sweep. -/
def limitGradeGo (pArgs : CmdArgs) (p1 : TrkPt) : List TrkPt → List TrkPt
  | [] => []
  | p2 :: tl =>
      let q := limitGradeStep pArgs p1 p2
      q :: limitGradeGo pArgs q tl

/-- `limitGrade` from main.c: sweep over (previous, current) pairs from
the second point onward; the first point is never adjusted. -/
def limitGrade (pArgs : CmdArgs) (l : List TrkPt) : List TrkPt :=
  match l with
  | [] => []
  | p1 :: tl => p1 :: limitGradeGo pArgs p1 tl

/-- The fatal per-point conditions of `checkTrkPts` in main.c: an unset
elevation, or an unset timestamp while no desired average speed is
configured to synthesize timing data. -/
def fatalTrkPt (pArgs : CmdArgs) (p : TrkPt) : Prop :=
  p.elevation = nilElev ∨ (p.timestamp = 0 ∧ pArgs.setSpeed = 0)

instance (pArgs : CmdArgs) (p : TrkPt) : Decidable (fatalTrkPt pArgs p) := by
  unfold fatalTrkPt
  infer_instance

/-- The duplicate-point condition of `checkTrkPts` (only checked when
not in verbatim mode): bit-identical latitude, longitude and elevation. -/
def dupCond (p1 p2 : TrkPt) : Prop :=
  p2.latitude = p1.latitude ∧ p2.longitude = p1.longitude ∧
    p2.elevation = p1.elevation

instance (p1 p2 : TrkPt) : Decidable (dupCond p1 p2) := by
  unfold dupCond
  infer_instance

/-- Discard condition of `checkTrkPts`: duplicate point (only outside
verbatim mode). -/
def dupDisc (pArgs : CmdArgs) (p1 p2 : TrkPt) : Prop :=
  pArgs.verbatim = false ∧ dupCond p1 p2

instance (pArgs : CmdArgs) (p1 p2 : TrkPt) : Decidable (dupDisc pArgs p1 p2) := by
  unfold dupDisc
  infer_instance

/-- Discard condition of `checkTrkPts`: non-monotonic timestamp (only
outside verbatim mode, and only for points whose timestamp is set). -/
def tsDisc (pArgs : CmdArgs) (p1 p2 : TrkPt) : Prop :=
  pArgs.verbatim = false ∧ p2.timestamp ≠ 0 ∧ p2.timestamp ≤ p1.timestamp

instance (pArgs : CmdArgs) (p1 p2 : TrkPt) : Decidable (tsDisc pArgs p1 p2) := by
  unfold tsDisc
  infer_instance

/-- Discard condition of `checkTrkPts`: non-monotonic cumulative
distance (only outside verbatim mode, and only for points whose
distance is set/nonzero). -/
def distDisc (pArgs : CmdArgs) (p1 p2 : TrkPt) : Prop :=
  pArgs.verbatim = false ∧ p2.distance ≠ 0 ∧ p2.distance ≤ p1.distance

instance (pArgs : CmdArgs) (p1 p2 : TrkPt) : Decidable (distDisc pArgs p1 p2) := by
  unfold distDisc
  infer_instance

/-- The pairwise monotonicity invariant the cleanup pass establishes
outside verbatim mode: a surviving point with a set (nonzero) timestamp
strictly exceeds its surviving predecessor's timestamp, and likewise
for a set (nonzero) cumulative distance. -/
def monoRel (p q : TrkPt) : Prop :=
  (q.timestamp ≠ 0 → p.timestamp < q.timestamp) ∧
    (q.distance ≠ 0 → p.distance < q.distance)

instance (p q : TrkPt) : Decidable (monoRel p q) := by
  unfold monoRel
  infer_instance

/-- Tail of the `checkTrkPts` sweep from main.c, carrying the previous
point `p1`.  For each current point `p2`: the fatal checks run first
and abort the whole pass; then, unless verbatim mode is set, the
duplicate, non-monotonic-timestamp and non-monotonic-distance checks
each mark the point for discard and bump `numDupTrkPts` resp.
`numDiscTrkPts` (the timestamp and distance checks can both fire for
one point, bumping `numDiscTrkPts` twice, as in the source).  A
discarded point leaves `p1` unchanged; a kept point becomes the new
`p1`.  The source's gap-closing adjustment inside this function is dead
code (its baseline `p0` is initialized to NULL and never assigned in
`checkTrkPts`), so the surviving points are returned unchanged.
Returns the surviving tail and the two counter increments. -/
def checkGo (pArgs : CmdArgs) (p1 : TrkPt) :
    List TrkPt → Except Unit (List TrkPt × ℕ × ℕ)
  | [] => .ok ([], 0, 0)
  | p2 :: tl =>
      if fatalTrkPt pArgs p2 then .error ()
      else
        let dupInc : ℕ := if dupDisc pArgs p1 p2 then 1 else 0
        let tsInc : ℕ := if tsDisc pArgs p1 p2 then 1 else 0
        let distInc : ℕ := if distDisc pArgs p1 p2 then 1 else 0
        if dupInc + tsInc + distInc ≠ 0 then
          match checkGo pArgs p1 tl with
          | .error () => .error ()
          | .ok (out, d, dc) => .ok (out, d + dupInc, dc + tsInc + distInc)
        else
          match checkGo pArgs p2 tl with
          | .error () => .error ()
          | .ok (out, d, dc) => .ok (p2 :: out, d, dc)

/-- `checkTrkPts` from main.c: run the cleanup sweep from the second
point onward (the first point is the initial previous point and is
never itself checked or discarded here).  `main` guarantees the list is
non-empty before this pass runs; on the empty list we return it
unchanged.  Result: surviving list, `numDupTrkPts` increment,
`numDiscTrkPts` increment. -/
def checkTrkPts (pArgs : CmdArgs) (l : List TrkPt) :
    Except Unit (List TrkPt × ℕ × ℕ) :=
  match l with
  | [] => .ok ([], 0, 0)
  | p1 :: tl =>
      match checkGo pArgs p1 tl with
      | .error () => .error ()
      | .ok (out, d, dc) => .ok (p1 :: out, d, dc)

/-- `main`'s post-ingestion emptiness check (`TAILQ_FIRST == NULL`):
the run aborts when no track points at all were ingested. -/
def mainEmptyAbort (l : List TrkPt) : Bool :=
  l.isEmpty

/-- The timestamp/distance gap-closing adjustment applied by
`trimTrkPts` to every point kept after a completed trim. -/
def trimAdjust (trimmedTime trimmedDistance : ℚ) (p : TrkPt) : TrkPt :=
  { p with timestamp := p.timestamp - trimmedTime,
           distance := p.distance - trimmedDistance }

/-- The `trimTrkPts` loop from main.c.  State: `trimming` (inside the
active trim range), the baseline point `p0` (set when trimming starts;
also the witness that a trim happened), and the accumulated trimmed
time/distance (set when trimming stops).  A point whose index equals
`trimFrom` starts the trim and becomes the baseline; a point whose
index equals `trimTo` stops it and fixes the trimmed deltas; points in
between are discarded; every point kept after the baseline was set has
the trimmed deltas subtracted from its timestamp and distance.  The
source dereferences `p0` at the `trimTo` point, so reaching `trimTo`
with no baseline set is modelled as failure (`none`). -/
def trimGo (pArgs : CmdArgs) (trimming : Bool) (p0 : Option TrkPt)
    (trimmedTime trimmedDistance : ℚ) :
    List TrkPt → Option (List TrkPt)
  | [] => some []
  | p :: tl =>
      if p.index = pArgs.trimFrom then
        trimGo pArgs true (some p) trimmedTime trimmedDistance tl
      else if p.index = pArgs.trimTo then
        match p0 with
        | none => none
        | some q =>
            trimGo pArgs false p0 (p.timestamp - q.timestamp)
              (p.distance - q.distance) tl
      else if trimming then
        trimGo pArgs trimming p0 trimmedTime trimmedDistance tl
      else
        match p0 with
        | none =>
            (trimGo pArgs trimming p0 trimmedTime trimmedDistance tl).map
              (p :: ·)
        | some _ =>
            (trimGo pArgs trimming p0 trimmedTime trimmedDistance tl).map
              (trimAdjust trimmedTime trimmedDistance p :: ·)

/-- `trimTrkPts` from main.c: discard the points in the configured trim
range `[trimFrom, trimTo]` and close the resulting time/distance gap on
the points that follow. -/
def trimTrkPts (pArgs : CmdArgs) (l : List TrkPt) : Option (List TrkPt) :=
  trimGo pArgs false none 0 0 l

/-- C cast `(int) value`: truncation of a double toward zero. -/
def cTruncInt (q : ℚ) : ℤ :=
  if q < 0 then ⌈q⌉ else ⌊q⌋

/-- `xmaGetVal` from main.c: read the smoothed metric from a point
(the integer `power` is widened to double). -/
def xmaGetVal (p : TrkPt) (xmaMetric : XmaMetric) : ℚ :=
  match xmaMetric with
  | .elevation => p.elevation
  | .grade => p.grade
  | .power => (p.power : ℚ)
  | .speed => p.speed

/-- `xmaSetVal` from main.c: write the smoothed metric back into the
point (`power` is truncated to int) and report whether the stored value
changed. -/
def xmaSetVal (p : TrkPt) (xmaMetric : XmaMetric) (value : ℚ) :
    TrkPt × Bool :=
  match xmaMetric with
  | .elevation => ({ p with elevation := value }, value ≠ p.elevation)
  | .grade => ({ p with grade := value }, value ≠ p.grade)
  | .power => ({ p with power := cTruncInt value }, value ≠ (p.power : ℚ))
  | .speed => ({ p with speed := value }, value ≠ p.speed)

/-- One side loop of `compMovAvg` from main.c: walk up to `n` points
away from the center (stopping early at the end of the list), giving
the point reached at loop counter `i` the weight `n - i` in weighted
mode and 1 in simple mode.  Returns the weighted sum and the sum of
the weights spent. -/
def sideSum (xmaMethod : XmaMethod) (n : ℤ) : ℤ → List ℚ → ℚ × ℤ
  | _, [] => (0, 0)
  | i, v :: vs =>
      if i < n then
        let w : ℤ := match xmaMethod with
          | .weighed => n - i
          | .simple => 1
        let r := sideSum xmaMethod n (i + 1) vs
        (r.1 + v * (w : ℚ), r.2 + w)
      else (0, 0)

/-- The SMA/WMA value `xmaVal` computed by `compMovAvg` in main.c:
`revBefore` lists the points before the center from nearest to farthest
(the `TAILQ_PREV` walk) and `after` the points behind it from nearest
to farthest (the `TAILQ_NEXT` walk).  The center weight is `n + 1` in
weighted mode and 1 in simple mode. -/
def compMovAvgVal (xmaMethod : XmaMethod) (xmaMetric : XmaMetric)
    (xmaWindow : ℤ) (revBefore : List TrkPt) (p : TrkPt)
    (after : List TrkPt) : ℚ :=
  let n : ℤ := (xmaWindow - 1).tdiv 2
  let b := sideSum xmaMethod n 0 (revBefore.map (xmaGetVal · xmaMetric))
  let wc : ℤ := match xmaMethod with
    | .weighed => n + 1
    | .simple => 1
  let a := sideSum xmaMethod n 0 (after.map (xmaGetVal · xmaMetric))
  let summ := b.1 + xmaGetVal p xmaMetric * (wc : ℚ) + a.1
  let denom : ℤ := b.2 + wc + a.2
  summ / (denom : ℚ)

/-- `compMovAvg` from main.c applied to one point: the SMA/WMA value
replaces the point's metric, and a grade point whose stored value
changed is flagged `adjGrade`. -/
def compMovAvgPt (xmaMethod : XmaMethod) (xmaMetric : XmaMetric)
    (xmaWindow : ℤ) (revBefore : List TrkPt) (p : TrkPt)
    (after : List TrkPt) : TrkPt :=
  let xmaVal := compMovAvgVal xmaMethod xmaMetric xmaWindow revBefore p after
  let r := xmaSetVal p xmaMetric xmaVal
  if r.2 ∧ xmaMetric = .grade then { r.1 with adjGrade := true } else r.1

/-- Tail of the `smoothMetric` sweep from main.c: points are smoothed
in place from the second point onward, so the window of a later point
sees the already-smoothed values of its predecessors.  `revDone` holds
the already-processed points, nearest first. -/
def smoothGo (pArgs : CmdArgs) (revDone : List TrkPt) :
    List TrkPt → List TrkPt
  | [] => []
  | p2 :: tl =>
      let q := if pointWithinRange pArgs p2 then
                 compMovAvgPt pArgs.xmaMethod pArgs.xmaMetric
                   pArgs.xmaWindow revDone p2 tl
               else p2
      q :: smoothGo pArgs (q :: revDone) tl

/-- `smoothMetric` from main.c: apply the moving average to every
in-range point from the second point onward (the first point is the
initial previous point of the sweep and is never smoothed). -/
def smoothMetric (pArgs : CmdArgs) (l : List TrkPt) : List TrkPt :=
  match l with
  | [] => []
  | p1 :: tl => p1 :: smoothGo pArgs [p1] tl

/-- Modelled from the spec (§4.4, for comparison with `compMovAvgPt`):
the smoothed value at an interior point in simple-average mode is "the
unweighted mean of its `W` raw neighbor values", i.e. of the
pre-smoothing metric values of the window's points. -/
def specSimpleRawMean (xmaMetric : XmaMetric) (n : ℤ)
    (rawBefore : List TrkPt) (p : TrkPt) (rawAfter : List TrkPt) : ℚ :=
  let vals := ((rawBefore.take n.toNat).reverse ++ p :: rawAfter.take n.toNat).map
    (xmaGetVal · xmaMetric)
  vals.sum / (vals.length : ℚ)

/-- Side sum under the spec's wording (§4.4): the `i`-th point away
from the center (1-based, so the argument `j` below counts points
already passed) gets weight `n − i`. -/
def specSide (xmaMetric : XmaMetric) (n : ℤ) : ℤ → List TrkPt → ℚ × ℤ
  | _, [] => (0, 0)
  | j, v :: vs =>
      if j < n then
        let w : ℤ := n - (j + 1)
        let r := specSide xmaMetric n (j + 1) vs
        (r.1 + xmaGetVal v xmaMetric * (w : ℚ), r.2 + w)
      else (0, 0)

/-- Modelled from the spec (§4.4, for comparison with `compMovAvgPt`):
in weighted mode "the center point gets weight `n+1`; the `i`-th point
away (on either side) gets weight `n−i`", so the nearest neighbor
(1 point away) weighs `n−1` and the point `n` away weighs 0. -/
def specWeighedAvg (xmaMetric : XmaMetric) (n : ℤ)
    (revBefore : List TrkPt) (p : TrkPt) (after : List TrkPt) : ℚ :=
  let b := specSide xmaMetric n 0 revBefore
  let a := specSide xmaMetric n 0 after
  (b.1 + xmaGetVal p xmaMetric * ((n + 1 : ℤ) : ℚ) + a.1) /
    ((b.2 + (n + 1) + a.2 : ℤ) : ℚ)

/-- `adjElevation` from main.c (the retained, run-fixed variant):
given the desired grade, recompute `rise = run * grade/100` and
`dist = sqrt(run² + rise²)`, and set the elevation to
`p1.elevation + rise`; nothing changes when the recomputed elevation
equals the stored one.  The square root of a double has no exact
rational counterpart, so the embedding is parametrized by the `sqrt`
implementation.  Returns the updated point and whether `numElevAdj`
was bumped. -/
def adjElevation (sqrtFn : ℚ → ℚ) (p1 p2 : TrkPt) : TrkPt × Bool :=
  let rn := p2.run
  let rise := rn * (p2.grade / 100)
  let dist := sqrtFn (rn * rn + rise * rise)
  let adjElev := p1.elevation + rise
  if adjElev ≠ p2.elevation then
    ({ p2 with rise := rise, dist := dist, elevation := adjElev }, true)
  else (p2, false)

/-- Tail of the `adjElev` sweep from main.c: reconcile the elevation of
every in-range point whose `adjGrade` flag is set. -/
def adjElevGo (sqrtFn : ℚ → ℚ) (pArgs : CmdArgs) (p1 : TrkPt) :
    List TrkPt → List TrkPt × ℕ
  | [] => ([], 0)
  | p2 :: tl =>
      let r := if pointWithinRange pArgs p2 ∧ p2.adjGrade = true then
                 adjElevation sqrtFn p1 p2
               else (p2, false)
      let rest := adjElevGo sqrtFn pArgs r.1 tl
      (r.1 :: rest.1, (if r.2 then 1 else 0) + rest.2)

/-- `adjElev` from main.c: the elevation-reconciliation pass, applied
from the second point onward. -/
def adjElev (sqrtFn : ℚ → ℚ) (pArgs : CmdArgs) (l : List TrkPt) :
    List TrkPt × ℕ :=
  match l with
  | [] => ([], 0)
  | p1 :: tl =>
      let r := adjElevGo sqrtFn pArgs p1 tl
      (p1 :: r.1, r.2)

/-- The correction stages `main` runs after `compMetrics`, with the
exact guards of main.c: grade limiting when any grade limit is
configured, smoothing when a window is configured for a non-elevation
metric, and elevation reconciliation unless suppressed.  None of the
guards consults the `verbatim` flag. -/
def postMetricsStages (sqrtFn : ℚ → ℚ) (pArgs : CmdArgs)
    (l : List TrkPt) : List TrkPt :=
  let l1 := if pArgs.maxGrade ≠ nilGrade ∨ pArgs.minGrade ≠ nilGrade ∨
               pArgs.maxGradeChange ≠ 0 then limitGrade pArgs l else l
  let l2 := if pArgs.xmaWindow ≠ 0 ∧ pArgs.xmaMetric ≠ .elevation then
              smoothMetric pArgs l1 else l1
  if pArgs.noElevAdj = false then (adjElev sqrtFn pArgs l2).1 else l2

/-- Sensor-data presence bits from defs.h (`SD_ATEMP`, `SD_CADENCE`,
`SD_HR`, `SD_POWER`). -/
def SD_ATEMP : ℕ := 1

/-- `SD_CADENCE` bit. -/
def SD_CADENCE : ℕ := 2

/-- `SD_HR` bit. -/
def SD_HR : ℕ := 4

/-- `SD_POWER` bit. -/
def SD_POWER : ℕ := 8

/-- The aggregate fields of `GpsTrk` written by `compMinMax`: extrema
with their point back-references, rolling elevation gain/loss, and the
rolling sums used for averaging. -/
structure Agg where
  minCadence : ℤ
  maxCadence : ℤ
  minHeartRate : ℤ
  maxHeartRate : ℤ
  minPower : ℤ
  maxPower : ℤ
  minSpeed : ℚ
  maxSpeed : ℚ
  minTemp : ℤ
  maxTemp : ℤ
  minElev : ℚ
  maxElev : ℚ
  minGrade : ℚ
  maxGrade : ℚ
  maxDeltaG : ℚ
  maxCadenceTrkPt : Option TrkPt
  minCadenceTrkPt : Option TrkPt
  maxHeartRateTrkPt : Option TrkPt
  minHeartRateTrkPt : Option TrkPt
  maxPowerTrkPt : Option TrkPt
  minPowerTrkPt : Option TrkPt
  maxSpeedTrkPt : Option TrkPt
  minSpeedTrkPt : Option TrkPt
  maxTempTrkPt : Option TrkPt
  minTempTrkPt : Option TrkPt
  maxElevTrkPt : Option TrkPt
  minElevTrkPt : Option TrkPt
  maxGradeTrkPt : Option TrkPt
  minGradeTrkPt : Option TrkPt
  maxDeltaGTrkPt : Option TrkPt
  elevGain : ℚ
  elevLoss : ℚ
  cadence : ℤ
  grade : ℚ
  heartRate : ℤ
  power : ℤ
  temp : ℤ

/-- Cadence block of the `compMinMax` loop body (guarded by
`SD_CADENCE`): the minimum branch is an `else` of the maximum branch
and requires a nonzero cadence. -/
def mmStepCadence (inMask : ℕ) (s : Agg) (p2 : TrkPt) : Agg :=
  if inMask.land SD_CADENCE ≠ 0 then
    if p2.cadence > s.maxCadence then
      { s with maxCadence := p2.cadence, maxCadenceTrkPt := some p2 }
    else if p2.cadence ≠ 0 ∧ p2.cadence < s.minCadence then
      { s with minCadence := p2.cadence, minCadenceTrkPt := some p2 }
    else s
  else s

/-- Heart-rate block of the `compMinMax` loop body (guarded by `SD_HR`;
zero heart rates are excluded from the minimum). -/
def mmStepHR (inMask : ℕ) (s : Agg) (p2 : TrkPt) : Agg :=
  if inMask.land SD_HR ≠ 0 then
    if p2.heartRate > s.maxHeartRate then
      { s with maxHeartRate := p2.heartRate, maxHeartRateTrkPt := some p2 }
    else if p2.heartRate ≠ 0 ∧ p2.heartRate < s.minHeartRate then
      { s with minHeartRate := p2.heartRate, minHeartRateTrkPt := some p2 }
    else s
  else s

/-- Power block of the `compMinMax` loop body (guarded by `SD_POWER`;
zero powers are excluded from the minimum). -/
def mmStepPower (inMask : ℕ) (s : Agg) (p2 : TrkPt) : Agg :=
  if inMask.land SD_POWER ≠ 0 then
    if p2.power > s.maxPower then
      { s with maxPower := p2.power, maxPowerTrkPt := some p2 }
    else if p2.power ≠ 0 ∧ p2.power < s.minPower then
      { s with minPower := p2.power, minPowerTrkPt := some p2 }
    else s
  else s

/-- Speed block of the `compMinMax` loop body (not behind any sensor
mask; note the `p2->speed != 0` test in the minimum branch, exactly as
in the source). -/
def mmStepSpeed (s : Agg) (p2 : TrkPt) : Agg :=
  if p2.speed > s.maxSpeed then
    { s with maxSpeed := p2.speed, maxSpeedTrkPt := some p2 }
  else if p2.speed ≠ 0 ∧ p2.speed < s.minSpeed then
    { s with minSpeed := p2.speed, minSpeedTrkPt := some p2 }
  else s

/-- Ambient-temperature block of the `compMinMax` loop body (guarded by
`SD_ATEMP`; no zero test in the minimum branch). -/
def mmStepTemp (inMask : ℕ) (s : Agg) (p2 : TrkPt) : Agg :=
  if inMask.land SD_ATEMP ≠ 0 then
    if p2.ambTemp > s.maxTemp then
      { s with maxTemp := p2.ambTemp, maxTempTrkPt := some p2 }
    else if p2.ambTemp < s.minTemp then
      { s with minTemp := p2.ambTemp, minTempTrkPt := some p2 }
    else s
  else s

/-- Elevation block of the `compMinMax` loop body (no zero test in the
minimum branch). -/
def mmStepElev (s : Agg) (p2 : TrkPt) : Agg :=
  if p2.elevation > s.maxElev then
    { s with maxElev := p2.elevation, maxElevTrkPt := some p2 }
  else if p2.elevation < s.minElev then
    { s with minElev := p2.elevation, minElevTrkPt := some p2 }
  else s

/-- Grade block of the `compMinMax` loop body (no zero test in the
minimum branch). -/
def mmStepGrade (s : Agg) (p2 : TrkPt) : Agg :=
  if p2.grade > s.maxGrade then
    { s with maxGrade := p2.grade, maxGradeTrkPt := some p2 }
  else if p2.grade < s.minGrade then
    { s with minGrade := p2.grade, minGradeTrkPt := some p2 }
  else s

/-- Max-grade-change update of the `compMinMax` loop body. -/
def mmStepDeltaG (s : Agg) (p2 : TrkPt) : Agg :=
  if p2.deltaG > s.maxDeltaG then
    { s with maxDeltaG := p2.deltaG, maxDeltaGTrkPt := some p2 }
  else s

/-- Rolling elevation gain/loss update of the `compMinMax` loop body. -/
def mmStepGain (s : Agg) (p2 : TrkPt) : Agg :=
  if p2.rise ≥ 0 then
    { s with elevGain := s.elevGain + p2.rise }
  else
    { s with elevLoss := s.elevLoss + (-p2.rise) }

/-- Rolling averaging sums update of the `compMinMax` loop body
(unconditional, as in the source). -/
def mmStepSums (s : Agg) (p2 : TrkPt) : Agg :=
  { s with
    cadence := s.cadence + p2.cadence,
    grade := s.grade + p2.grade,
    heartRate := s.heartRate + p2.heartRate,
    power := s.power + p2.power,
    temp := s.temp + p2.ambTemp }

/-- The loop body of `compMinMax` from main.c for one point `p2`: the
per-channel min/max blocks in source order, then the rolling updates. -/
def minMaxStep (inMask : ℕ) (s : Agg) (p2 : TrkPt) : Agg :=
  mmStepSums
    (mmStepGain
      (mmStepDeltaG
        (mmStepGrade
          (mmStepElev
            (mmStepTemp inMask
              (mmStepSpeed
                (mmStepPower inMask
                  (mmStepHR inMask
                    (mmStepCadence inMask s p2) p2) p2) p2) p2) p2) p2) p2) p2) p2

/-- The min/max seeds `compMinMax` installs before its sweep (the
fractional seeds assigned to `int` fields truncate, as in C). -/
def initAgg (s : Agg) : Agg :=
  { s with
    minCadence := 999, maxCadence := -999,
    minHeartRate := 999, maxHeartRate := -999,
    minPower := 9999, maxPower := -9999,
    minSpeed := 9999/10, maxSpeed := -9999/10,
    minTemp := 999, maxTemp := -999,
    minElev := 999999/10, maxElev := -999999/10,
    minGrade := 999/10, maxGrade := -999/10 }

/-- `compMinMax` from main.c: seed the extrema, then sweep the points
from the second one onward (`p2` starts at `TAILQ_NEXT(p1)`); the first
point is only the loop anchor and its channel values are never read. -/
def compMinMax (inMask : ℕ) (s : Agg) (l : List TrkPt) : Agg :=
  match l with
  | [] => initAgg s
  | _ :: tl => tl.foldl (minMaxStep inMask) (initAgg s)

/-- `degToRad` from const.c. -/
def degToRad : ℚ := 0.01745329252

/-- `earthMeanRadius` from const.c (meters). -/
def earthMeanRadius : ℚ := 6372797.560856

noncomputable section

open Real in
/-- The intermediate haversine value `h` computed by `compDistance` in
main.c, in exact real arithmetic:
`sin²(Δφ/2) + cos φ₁ · cos φ₂ · sin²(Δλ/2)`. -/
def haversineH (p1 p2 : TrkPt) : ℝ :=
  let phi1 := (p1.latitude : ℝ) * (degToRad : ℝ)
  let phi2 := (p2.latitude : ℝ) * (degToRad : ℝ)
  let deltaPhi := phi2 - phi1
  let deltaLambda := ((p2.longitude : ℝ) - (p1.longitude : ℝ)) * (degToRad : ℝ)
  let a := sin (deltaPhi / 2)
  let b := sin (deltaLambda / 2)
  a * a + cos phi1 * cos phi2 * (b * b)

open Real in
/-- `compDistance` from main.c: the great-circle distance between two
track points by the Haversine formula.  The source runs
`assert(h >= 0.0)` before `asin(sqrt(h))`; the assertion failure is
modelled as `none`. -/
def compDistance (p1 p2 : TrkPt) : Option ℝ :=
  let h := haversineH p1 p2
  if h < 0 then none
  else some (2 * (earthMeanRadius : ℝ) * arcsin (sqrt h))

end

/-- A freshly ingested track point (`newTrkPt` in trkpt.c, modelled
from the spec: "Derived fields ... initially zero/unset"): all fields
zero except the sentinels tested by `compMetrics`
(`p2->speed == nilSpeed`, `p2->grade == nilGrade`) and the elevation
sentinel (`nilElev`), which imply the sentinel initialization. -/
def newTrkPt (idx : ℤ) : TrkPt :=
  { index := idx, timestamp := 0, latitude := 0, longitude := 0,
    elevation := nilElev, ambTemp := 0, cadence := 0, heartRate := 0,
    power := 0, speed := nilSpeed, distance := 0, adjGrade := false,
    deltaT := 0, dist := 0, rise := 0, run := 0, bearing := 0,
    grade := nilGrade, deltaG := 0 }

/-- The configuration defaults established by `parseArgs` in main.c:
`CmdArgs` is zero-initialized, then the grade limits are set to
`nilGrade` and the moving average defaults to a simple average over the
elevation. -/
def defaultArgs : CmdArgs :=
  { closeGap := 0, maxGrade := nilGrade, maxGradeChange := 0,
    minGrade := nilGrade, noElevAdj := false, quiet := false,
    rangeFrom := 0, rangeTo := 0, setSpeed := 0,
    xmaMethod := .simple, xmaMetric := .elevation, xmaWindow := 0,
    startTime := 0, trimFrom := 0, trimTo := 0, verbatim := false }

/-- The zero-initialized `GpsTrk` aggregate of `main`
(`GpsTrk gpsTrk = {0}`), restricted to the fields `compMinMax` uses. -/
def agg0 : Agg :=
  { minCadence := 0, maxCadence := 0, minHeartRate := 0, maxHeartRate := 0,
    minPower := 0, maxPower := 0, minSpeed := 0, maxSpeed := 0,
    minTemp := 0, maxTemp := 0, minElev := 0, maxElev := 0,
    minGrade := 0, maxGrade := 0, maxDeltaG := 0,
    maxCadenceTrkPt := none, minCadenceTrkPt := none,
    maxHeartRateTrkPt := none, minHeartRateTrkPt := none,
    maxPowerTrkPt := none, minPowerTrkPt := none,
    maxSpeedTrkPt := none, minSpeedTrkPt := none,
    maxTempTrkPt := none, minTempTrkPt := none,
    maxElevTrkPt := none, minElevTrkPt := none,
    maxGradeTrkPt := none, minGradeTrkPt := none,
    maxDeltaGTrkPt := none,
    elevGain := 0, elevLoss := 0, cadence := 0, grade := 0,
    heartRate := 0, power := 0, temp := 0 }

/-- Configuration for the C1 counterexample: `--max-grade 10
--max-grade-change 150` (both within the ranges `parseArgs` accepts). -/
def c1Args : CmdArgs :=
  { defaultArgs with maxGrade := 10, maxGradeChange := 150 }

/-- Track for the C1 counterexample, in the state `compMetrics` leaves
it in: the first point keeps its unset grade, the later grades lie in
`[-99.9, 99.9]`, and each `deltaG` equals the absolute grade change
from the predecessor. -/
def c1Pts : List TrkPt :=
  [ newTrkPt 0,
    { newTrkPt 1 with elevation := 100, timestamp := 1, speed := 1,
                      grade := 0, deltaG := 9999/100 },
    { newTrkPt 2 with elevation := 110, timestamp := 2, speed := 1,
                      grade := 99, deltaG := 99 },
    { newTrkPt 3 with elevation := 105, timestamp := 3, speed := 1,
                      grade := -60, deltaG := 159 } ]

/-- Configuration for the C2 counterexample: a desired average speed is
set (`--set-speed`), so points without a timestamp are tolerated. -/
def c2Args : CmdArgs :=
  { defaultArgs with setSpeed := 5 }

/-- Track for the C2 counterexample: the second point has no timestamp
(a route point), the first one has. -/
def c2Pts : List TrkPt :=
  [ { newTrkPt 0 with elevation := 100, timestamp := 5 },
    { newTrkPt 1 with elevation := 120, timestamp := 0 } ]

/-- Configuration for the C4 counterexample: `--trim 1,2` on a
three-point track, so the trimmed range ends at the last point. -/
def c4Args : CmdArgs :=
  { defaultArgs with trimFrom := 1, trimTo := 2 }

/-- Track for the C4 counterexample: three points with strictly
increasing timestamps and distances. -/
def c4Pts : List TrkPt :=
  [ { newTrkPt 0 with elevation := 100, timestamp := 0, distance := 0 },
    { newTrkPt 1 with elevation := 101, timestamp := 10, distance := 5 },
    { newTrkPt 2 with elevation := 102, timestamp := 20, distance := 9 } ]

/-- Configuration for the C5 counterexample: a simple moving average
over the elevation with window size 3. -/
def c5Args : CmdArgs :=
  { defaultArgs with xmaWindow := 3, xmaMethod := .simple,
                     xmaMetric := .elevation }

/-- Track for the C5 counterexample: elevations 0, 6, 0, 0, 0; the
third point is interior for a window of 3. -/
def c5Pts : List TrkPt :=
  [ { newTrkPt 0 with elevation := 0, timestamp := 1 },
    { newTrkPt 1 with elevation := 6, timestamp := 2 },
    { newTrkPt 2 with elevation := 0, timestamp := 3 },
    { newTrkPt 3 with elevation := 0, timestamp := 4 },
    { newTrkPt 4 with elevation := 0, timestamp := 5 } ]

/-- Center point for the C6 counterexample (elevation 4). -/
def c6Center : TrkPt :=
  { newTrkPt 1 with elevation := 4 }

/-- Window neighbors for the C6 counterexample (elevation 0). -/
def c6Side : TrkPt :=
  { newTrkPt 0 with elevation := 0 }

/-- Track for the C7 counterexample: the second point has speed 5, the
third has speed 0 (all other channels absent). -/
def c7Pts : List TrkPt :=
  [ { newTrkPt 0 with elevation := 100, timestamp := 1, speed := 0 },
    { newTrkPt 1 with elevation := 100, timestamp := 2, speed := 5 },
    { newTrkPt 2 with elevation := 100, timestamp := 3, speed := 0 } ]

/-- Configuration for the C9 counterexample: `--verbatim` together with
`--max-grade 5 --no-elev-adj`. -/
def c9Args : CmdArgs :=
  { defaultArgs with verbatim := true, maxGrade := 5, noElevAdj := true }

/-- Track for the C9 counterexample: the second point's grade is 10,
above the configured maximum. -/
def c9Pts : List TrkPt :=
  [ { newTrkPt 0 with elevation := 100, timestamp := 1, grade := 0 },
    { newTrkPt 1 with elevation := 110, timestamp := 2, grade := 10,
                      deltaG := 10 } ]

/-- Whether an `Except` result is the error case (a non-zero return of
the C function). -/
def isErr {α : Type} (e : Except Unit α) : Bool :=
  match e with
  | .error _ => true
  | .ok _ => false

/-- Total track time in the sense of claim C4: last surviving timestamp
minus first surviving timestamp (0 on the empty track). -/
def totalTime (l : List TrkPt) : ℚ :=
  (l.getLast?.elim 0 (·.timestamp)) - (l.head?.elim 0 (·.timestamp))

/-- Total cumulative track distance, analogously to `totalTime`. -/
def totalDistance (l : List TrkPt) : ℚ :=
  (l.getLast?.elim 0 (·.distance)) - (l.head?.elim 0 (·.distance))

/-- The weights actually spent by the weighted side loop of
`compMovAvg`, written positionally: the nearest point of the side gets
weight `n`, the next `n - 1`, and so on, stopping at the end of the
list or once `n` points were taken, so the smallest weight ever spent
on a point is 1 and a weight of 0 is never used. -/
def codeWeighedSide (n : ℤ) : List ℚ → ℚ × ℤ
  | [] => (0, 0)
  | v :: vs =>
      if 0 < n then
        let r := codeWeighedSide (n - 1) vs
        (r.1 + v * (n : ℚ), r.2 + n)
      else (0, 0)

/-- Configuration for the C1 witness: `--max-grade 8`. -/
def c1wArgs : CmdArgs :=
  { defaultArgs with maxGrade := 8 }

/-- Track for the C1 witness: grades 0 and 50. -/
def c1wPts : List TrkPt :=
  [ { newTrkPt 0 with elevation := 100, timestamp := 1, grade := 0 },
    { newTrkPt 1 with elevation := 150, timestamp := 2, grade := 50,
                      deltaG := 50 } ]

/-- The second point of `c1wPts` after grade limiting: clamped to 8. -/
def c1wQ : TrkPt :=
  { newTrkPt 1 with elevation := 150, timestamp := 2, grade := 8,
                    deltaG := 50, adjGrade := true }



/-- Configuration for the C4 witness: `--trim 1,2` on a four-point
track. -/
def c4wArgs : CmdArgs := { defaultArgs with trimFrom := 1, trimTo := 2 }

/-- First point of the C4 witness track. -/
def c4wP0 : TrkPt := { newTrkPt 0 with elevation := 100, timestamp := 0, distance := 0 }

/-- Second point of the C4 witness track (start of the trim range). -/
def c4wP1 : TrkPt := { newTrkPt 1 with elevation := 101, timestamp := 10, distance := 5 }

/-- Third point of the C4 witness track (end of the trim range). -/
def c4wP2 : TrkPt := { newTrkPt 2 with elevation := 102, timestamp := 20, distance := 9 }

/-- Fourth point of the C4 witness track (survives, gap-closed). -/
def c4wP3 : TrkPt := { newTrkPt 3 with elevation := 103, timestamp := 30, distance := 12 }


/-- Configuration for the C5 witness: `--xma-window 1`. -/
def c5wArgs : CmdArgs := { defaultArgs with xmaWindow := 1 }

/-! ## Supporting lemmas and claim theorems -/

theorem limitGradeStep_no_change_indep (pArgs : CmdArgs)
    (hmgc : pArgs.maxGradeChange = 0) (p1 q1 p2 : TrkPt) :
    limitGradeStep pArgs p1 p2 = limitGradeStep pArgs q1 p2 := by
  simp [limitGradeStep, hmgc]

theorem limitGradeGo_no_change_map (pArgs : CmdArgs)
    (hmgc : pArgs.maxGradeChange = 0) :
    ∀ (l : List TrkPt) (p1 : TrkPt),
      limitGradeGo pArgs p1 l = l.map (fun p => limitGradeStep pArgs p p)
  | [], _ => rfl
  | p2 :: tl, p1 => by
      simp only [limitGradeGo, List.map]
      rw [limitGradeStep_no_change_indep pArgs hmgc p1 p2 p2]
      rw [limitGradeGo_no_change_map pArgs hmgc tl]

theorem limitGradeStep_index (pArgs : CmdArgs) (p1 p2 : TrkPt) :
    (limitGradeStep pArgs p1 p2).index = p2.index := by
  simp only [limitGradeStep, adjMaxGrade, adjMinGrade, adjGradeChange]
  split_ifs <;> rfl

theorem pointWithinRange_congr (pArgs : CmdArgs) {p q : TrkPt}
    (h : p.index = q.index) :
    pointWithinRange pArgs p = pointWithinRange pArgs q := by
  simp [pointWithinRange, h]

theorem limitGradeStep_self_bounds (pArgs : CmdArgs) (p : TrkPt)
    (hmgc : pArgs.maxGradeChange = 0)
    (hmm : pArgs.minGrade ≠ nilGrade → pArgs.maxGrade ≠ nilGrade →
      pArgs.minGrade ≤ pArgs.maxGrade)
    (hmaxr : pArgs.maxGrade ≠ nilGrade →
      -999/10 ≤ pArgs.maxGrade ∧ pArgs.maxGrade ≤ 999/10)
    (hminr : pArgs.minGrade ≠ nilGrade →
      -999/10 ≤ pArgs.minGrade ∧ pArgs.minGrade ≤ 999/10)
    (hp : -999/10 ≤ p.grade ∧ p.grade ≤ 999/10) :
    (pointWithinRange pArgs p = true →
      (pArgs.maxGrade ≠ nilGrade →
        (limitGradeStep pArgs p p).grade ≤ pArgs.maxGrade) ∧
      (pArgs.minGrade ≠ nilGrade →
        pArgs.minGrade ≤ (limitGradeStep pArgs p p).grade)) ∧
    (-999/10 ≤ (limitGradeStep pArgs p p).grade ∧
      (limitGradeStep pArgs p p).grade ≤ 999/10) := by
  simp only [limitGradeStep, hmgc, ne_eq, not_true_eq_false, false_and, if_false,
    adjMaxGrade, adjMinGrade]
  split_ifs with hrange hmax hmin hmin
  · exact absurd (hmm hmin.1 (fun h => hmax.1 h)) (not_le.mpr hmin.2)
  · refine ⟨fun _ => ⟨fun _ => le_refl _, fun hm => ?_⟩, hmaxr hmax.1⟩
    rcases not_and_or.mp hmin with h | h
    · exact absurd hm (by simpa using h)
    · exact not_lt.mp h
  · refine ⟨fun _ => ⟨fun hM => hmm hmin.1 hM, fun _ => le_refl _⟩, hminr hmin.1⟩
  · refine ⟨fun _ => ⟨fun hM => ?_, fun hm => ?_⟩, hp⟩
    · rcases not_and_or.mp hmax with h | h
      · exact absurd hM (by simpa using h)
      · exact not_lt.mp h
    · rcases not_and_or.mp hmin with h | h
      · exact absurd hm (by simpa using h)
      · exact not_lt.mp h
  · exact ⟨fun hr => absurd hr (by simpa using hrange), hp⟩

/-- Claim C1 (amended): after grade limiting with no max-grade-change
limit configured, every in-range point from the second onward respects
the configured grade bounds (consistent bounds assumed, as `parseArgs`
guarantees their ranges), and its grade stays within `[-99.9, 99.9]`
when the grades entering the pass were.  The unamended claim fails
because the max-grade-change adjustment, driven by the stale `deltaG`,
can move a grade past the configured bounds and past `±99.9`
(see the counterexample), and because the first point's grade is never
touched by the pass. -/
theorem claimC1 (pArgs : CmdArgs) (l : List TrkPt) (q : TrkPt)
    (hmgc : pArgs.maxGradeChange = 0)
    (hmm : pArgs.minGrade ≠ nilGrade → pArgs.maxGrade ≠ nilGrade →
      pArgs.minGrade ≤ pArgs.maxGrade)
    (hmaxr : pArgs.maxGrade ≠ nilGrade →
      -999/10 ≤ pArgs.maxGrade ∧ pArgs.maxGrade ≤ 999/10)
    (hminr : pArgs.minGrade ≠ nilGrade →
      -999/10 ≤ pArgs.minGrade ∧ pArgs.minGrade ≤ 999/10)
    (hgr : ∀ p ∈ l.drop 1, -999/10 ≤ p.grade ∧ p.grade ≤ 999/10)
    (hq : q ∈ (limitGrade pArgs l).drop 1) :
    (pointWithinRange pArgs q = true →
      (pArgs.maxGrade ≠ nilGrade → q.grade ≤ pArgs.maxGrade) ∧
      (pArgs.minGrade ≠ nilGrade → pArgs.minGrade ≤ q.grade)) ∧
    (-999/10 ≤ q.grade ∧ q.grade ≤ 999/10) := by
  match l with
  | [] => simp [limitGrade] at hq
  | p1 :: tl =>
    simp only [limitGrade, List.drop_succ_cons, List.drop_zero] at hq
    rw [limitGradeGo_no_change_map pArgs hmgc tl p1] at hq
    rcases List.mem_map.mp hq with ⟨p, hpmem, hpq⟩
    have hpb : -999/10 ≤ p.grade ∧ p.grade ≤ 999/10 := by
      apply hgr
      simpa using hpmem
    have hidx : pointWithinRange pArgs q = pointWithinRange pArgs p := by
      apply pointWithinRange_congr
      rw [← hpq, limitGradeStep_index]
    have := limitGradeStep_self_bounds pArgs p hmgc hmm hmaxr hminr hpb
    rw [hpq] at this
    rw [hidx]
    exact this

/-- Claim C1 (counterexample): with `--max-grade 10
--max-grade-change 150`, on a track whose grades enter `limitGrade`
within `[-99.9, 99.9]` and whose `deltaG` values are exactly the ones
`compMetrics` computes, the pass leaves a point with grade `-140`,
outside `[-99.9, 99.9]` (the stale-`deltaG` adjustment fires after the
max clamp and overshoots). -/
theorem claimC1_counterexample :
    ¬ (∀ q ∈ limitGrade c1Args c1Pts,
        -999/10 ≤ q.grade ∧ q.grade ≤ 999/10) := by
  intro h
  have hmap : (limitGrade c1Args c1Pts).map (·.grade) =
      [-9999/100, 0, 10, -140] := by
    norm_num [limitGrade, limitGradeGo, limitGradeStep, adjMaxGrade,
      adjMinGrade, adjGradeChange, pointWithinRange, c1Args, c1Pts,
      defaultArgs, newTrkPt, nilGrade]
  have h140 : (-140 : ℚ) ∈ (limitGrade c1Args c1Pts).map (·.grade) := by
    rw [hmap]
    norm_num
  rcases List.mem_map.mp h140 with ⟨q, hq, hgrade⟩
  have hb := h q hq
  rw [hgrade] at hb
  norm_num at hb

/-- Claim C1 (witness): on a concrete track with `--max-grade 8`, the
amended theorem instantiates to the clamped second point. -/
theorem claimC1_witness :
    c1wQ.grade ≤ c1wArgs.maxGrade ∧
      -999/10 ≤ c1wQ.grade ∧ c1wQ.grade ≤ 999/10 := by
  have hq : c1wQ ∈ (limitGrade c1wArgs c1wPts).drop 1 := by
    norm_num [limitGrade, limitGradeGo, limitGradeStep, adjMaxGrade,
      adjMinGrade, adjGradeChange, pointWithinRange, c1wArgs, c1wPts, c1wQ,
      defaultArgs, newTrkPt, nilGrade]
  have hmin : c1wArgs.minGrade = nilGrade := rfl
  have h := claimC1 c1wArgs c1wPts c1wQ rfl
    (fun hm _ => absurd hmin hm)
    (fun _ => by norm_num [c1wArgs, defaultArgs, nilGrade])
    (fun hm => absurd hmin hm)
    (by
      intro p hp
      simp only [c1wPts, List.drop_succ_cons, List.drop_zero,
        List.mem_singleton] at hp
      rw [hp]
      norm_num [newTrkPt, nilGrade])
    hq
  refine ⟨(h.1 ?_).1 ?_, h.2⟩
  · rfl
  · rw [show c1wArgs.maxGrade = 8 from rfl]
    norm_num [nilGrade]

theorem checkGo_chain (pArgs : CmdArgs) (hv : pArgs.verbatim = false) :
    ∀ (tl : List TrkPt) (p1 : TrkPt) (out : List TrkPt) (d dc : ℕ),
      checkGo pArgs p1 tl = .ok (out, d, dc) →
      List.Chain' monoRel (p1 :: out)
  | [], p1, out, d, dc, h => by
      rw [checkGo] at h
      cases h
      simp
  | p2 :: tl, p1, out, d, dc, h => by
      rw [checkGo] at h
      by_cases hf : fatalTrkPt pArgs p2
      · rw [if_pos hf] at h
        exact Except.noConfusion h
      · rw [if_neg hf] at h
        dsimp only at h
        by_cases hdisc : (if dupDisc pArgs p1 p2 then (1:ℕ) else 0) +
            (if tsDisc pArgs p1 p2 then (1:ℕ) else 0) +
            (if distDisc pArgs p1 p2 then (1:ℕ) else 0) ≠ 0
        · rw [if_pos hdisc] at h
          rcases hrec : checkGo pArgs p1 tl with u | ⟨out1, d1, dc1⟩
          · rw [hrec] at h
            exact Except.noConfusion h
          · rw [hrec] at h
            dsimp only at h
            cases h
            exact checkGo_chain pArgs hv tl p1 _ _ _ hrec
        · rw [if_neg hdisc] at h
          rcases hrec : checkGo pArgs p2 tl with u | ⟨out1, d1, dc1⟩
          · rw [hrec] at h
            exact Except.noConfusion h
          · rw [hrec] at h
            dsimp only at h
            cases h
            have hchain := checkGo_chain pArgs hv tl p2 _ _ _ hrec
            rw [List.chain'_cons]
            refine ⟨⟨fun hts => ?_, fun hdist => ?_⟩, hchain⟩
            · by_contra hle
              apply hdisc
              have : tsDisc pArgs p1 p2 := ⟨hv, hts, not_lt.mp hle⟩
              simp [this]
            · by_contra hle
              apply hdisc
              have : distDisc pArgs p1 p2 := ⟨hv, hdist, not_lt.mp hle⟩
              simp [this]

theorem checkGo_isErr (pArgs : CmdArgs) :
    ∀ (tl : List TrkPt) (p1 : TrkPt),
      isErr (checkGo pArgs p1 tl) = true ↔ ∃ p ∈ tl, fatalTrkPt pArgs p
  | [], p1 => by
      rw [checkGo]
      simp [isErr]
  | p2 :: tl, p1 => by
      rw [checkGo]
      by_cases hf : fatalTrkPt pArgs p2
      · rw [if_pos hf]
        simp only [isErr, true_iff]
        exact ⟨p2, List.mem_cons_self p2 tl, hf⟩
      · rw [if_neg hf]
        dsimp only
        have hmem : (∃ p ∈ p2 :: tl, fatalTrkPt pArgs p) ↔
            ∃ p ∈ tl, fatalTrkPt pArgs p := by
          simp only [List.mem_cons, exists_eq_or_imp]
          tauto
        rw [hmem]
        by_cases hdisc : (if dupDisc pArgs p1 p2 then (1:ℕ) else 0) +
            (if tsDisc pArgs p1 p2 then (1:ℕ) else 0) +
            (if distDisc pArgs p1 p2 then (1:ℕ) else 0) ≠ 0
        · rw [if_pos hdisc]
          rcases hrec : checkGo pArgs p1 tl with u | v
          · simp only [isErr, true_iff]
            have := (checkGo_isErr pArgs tl p1).mp (by rw [hrec]; rfl)
            exact this
          · rcases v with ⟨out1, d1, dc1⟩
            dsimp only [isErr]
            rw [← checkGo_isErr pArgs tl p1, hrec]
            simp [isErr]
        · rw [if_neg hdisc]
          rcases hrec : checkGo pArgs p2 tl with u | v
          · simp only [isErr, true_iff]
            have := (checkGo_isErr pArgs tl p2).mp (by rw [hrec]; rfl)
            exact this
          · rcases v with ⟨out1, d1, dc1⟩
            dsimp only [isErr]
            rw [← checkGo_isErr pArgs tl p2, hrec]
            simp [isErr]

theorem checkGo_length (pArgs : CmdArgs) :
    ∀ (tl : List TrkPt) (p1 : TrkPt) (out : List TrkPt) (d dc : ℕ),
      checkGo pArgs p1 tl = .ok (out, d, dc) →
      out.length ≤ tl.length ∧ tl.length ≤ out.length + d + dc
  | [], p1, out, d, dc, h => by
      rw [checkGo] at h
      cases h
      simp
  | p2 :: tl, p1, out, d, dc, h => by
      rw [checkGo] at h
      by_cases hf : fatalTrkPt pArgs p2
      · rw [if_pos hf] at h
        exact Except.noConfusion h
      · rw [if_neg hf] at h
        dsimp only at h
        by_cases hdisc : (if dupDisc pArgs p1 p2 then (1:ℕ) else 0) +
            (if tsDisc pArgs p1 p2 then (1:ℕ) else 0) +
            (if distDisc pArgs p1 p2 then (1:ℕ) else 0) ≠ 0
        · rw [if_pos hdisc] at h
          rcases hrec : checkGo pArgs p1 tl with u | ⟨out1, d1, dc1⟩
          · rw [hrec] at h
            exact Except.noConfusion h
          · rw [hrec] at h
            dsimp only at h
            cases h
            have ih := checkGo_length pArgs tl p1 _ _ _ hrec
            have hone : 1 ≤ (if dupDisc pArgs p1 p2 then (1:ℕ) else 0) +
                (if tsDisc pArgs p1 p2 then (1:ℕ) else 0) +
                (if distDisc pArgs p1 p2 then (1:ℕ) else 0) :=
              Nat.one_le_iff_ne_zero.mpr hdisc
            simp only [List.length_cons]
            constructor
            · omega
            · split_ifs at hone ⊢ <;> omega
        · rw [if_neg hdisc] at h
          rcases hrec : checkGo pArgs p2 tl with u | ⟨out1, d1, dc1⟩
          · rw [hrec] at h
            exact Except.noConfusion h
          · rw [hrec] at h
            dsimp only at h
            cases h
            have ih := checkGo_length pArgs tl p2 _ _ _ hrec
            simp only [List.length_cons]
            omega

/-- Claim C2 (amended): outside verbatim mode, after a successful
cleanup pass every adjacent surviving pair is monotone in the guarded
sense actually enforced by the code: the timestamp strictly increases
whenever the current point's timestamp is set (nonzero), and the
cumulative distance strictly increases whenever it is set (nonzero).
The unamended claim fails in verbatim mode (no checks run at all) and
for points without a timestamp, which are tolerated when a desired
average speed is configured (see the counterexample). -/
theorem claimC2 (pArgs : CmdArgs) (l out : List TrkPt) (d dc : ℕ)
    (hv : pArgs.verbatim = false)
    (h : checkTrkPts pArgs l = .ok (out, d, dc)) :
    List.Chain' monoRel out := by
  match l with
  | [] =>
    rw [checkTrkPts] at h
    cases h
    simp
  | p1 :: tl =>
    rw [checkTrkPts] at h
    rcases hrec : checkGo pArgs p1 tl with u | ⟨out1, d1, dc1⟩
    · rw [hrec] at h
      exact Except.noConfusion h
    · rw [hrec] at h
      dsimp only at h
      cases h
      exact checkGo_chain pArgs hv tl p1 _ _ _ hrec

/-- Claim C2 (counterexample): with `--set-speed` configured and no
verbatim flag, a second point with no timestamp survives cleanup, and
the surviving timestamps 5, 0 do not strictly increase. -/
theorem claimC2_counterexample :
    c2Args.verbatim = false ∧
    checkTrkPts c2Args c2Pts = .ok (c2Pts, 0, 0) ∧
    ¬ List.Chain' (fun p q : TrkPt => p.timestamp < q.timestamp) c2Pts := by
  refine ⟨rfl, ?_, ?_⟩
  · norm_num [checkTrkPts, checkGo, fatalTrkPt, dupDisc, dupCond, tsDisc,
      distDisc, c2Args, c2Pts, defaultArgs, newTrkPt, nilElev, nilSpeed]
  · simp only [c2Pts, List.chain'_cons, List.chain'_singleton, and_true]
    norm_num [newTrkPt]

/-- Claim C2 (witness): the amended theorem applied to the concrete
cleanup run of the counterexample track. -/
theorem claimC2_witness :
    c2Args.verbatim = false ∧
    checkTrkPts c2Args c2Pts = .ok (c2Pts, 0, 0) ∧
    List.Chain' monoRel c2Pts := by
  have hok : checkTrkPts c2Args c2Pts = .ok (c2Pts, 0, 0) := by
    norm_num [checkTrkPts, checkGo, fatalTrkPt, dupDisc, dupCond, tsDisc,
      distDisc, c2Args, c2Pts, defaultArgs, newTrkPt, nilElev, nilSpeed]
  exact ⟨rfl, hok, claimC2 c2Args c2Pts c2Pts 0 0 rfl hok⟩

/-- Claim C3 (confirmed): the cleanup pass fails exactly when some
point from the second onward (every one of them is examined, also the
ones later discarded) has an unset elevation or an unset timestamp with
no configured average speed; on success the surviving length plus the
duplicate and discard counter increments bounds the original length,
so no point is dropped without a counter increment; and the
post-ingestion check of `main` aborts exactly on the empty point list.
The first point is never examined by `checkTrkPts` itself: `main`
checks its elevation and timestamp separately before this pass. -/
theorem claimC3 (pArgs : CmdArgs) (l : List TrkPt) :
    (isErr (checkTrkPts pArgs l) = true ↔
      ∃ p ∈ l.drop 1, fatalTrkPt pArgs p) ∧
    (∀ out d dc, checkTrkPts pArgs l = .ok (out, d, dc) →
      out.length ≤ l.length ∧ l.length ≤ out.length + d + dc) ∧
    (mainEmptyAbort l = true ↔ l = []) := by
  refine ⟨?_, ?_, ?_⟩
  · match l with
    | [] =>
      rw [checkTrkPts]
      simp [isErr]
    | p1 :: tl =>
      rw [checkTrkPts]
      simp only [List.drop_succ_cons, List.drop_zero]
      rw [← checkGo_isErr pArgs tl p1]
      rcases hrec : checkGo pArgs p1 tl with u | ⟨out1, d1, dc1⟩
      · simp [isErr]
      · simp [isErr]
  · intro out d dc h
    match l with
    | [] =>
      rw [checkTrkPts] at h
      cases h
      simp
    | p1 :: tl =>
      rw [checkTrkPts] at h
      rcases hrec : checkGo pArgs p1 tl with u | ⟨out1, d1, dc1⟩
      · rw [hrec] at h
        exact Except.noConfusion h
      · rw [hrec] at h
        dsimp only at h
        cases h
        have ih := checkGo_length pArgs tl p1 _ _ _ hrec
        simp only [List.length_cons]
        omega
  · simp [mainEmptyAbort, List.isEmpty_iff]

theorem trimGo_adjusted (pArgs : CmdArgs) (pa : TrkPt) (dt dd : ℚ) :
    ∀ (l : List TrkPt),
      (∀ p ∈ l, p.index ≠ pArgs.trimFrom ∧ p.index ≠ pArgs.trimTo) →
      trimGo pArgs false (some pa) dt dd l = some (l.map (trimAdjust dt dd))
  | [], _ => rfl
  | p :: tl, h => by
      have hp := h p (List.mem_cons_self p tl)
      rw [trimGo, if_neg hp.1, if_neg hp.2, if_neg (Bool.false_ne_true)]
      rw [trimGo_adjusted pArgs pa dt dd tl
        (fun q hq => h q (List.mem_cons_of_mem p hq))]
      rfl

theorem trimGo_inRange (pArgs : CmdArgs) (pa : TrkPt) (dt dd : ℚ) :
    ∀ (l : List TrkPt) (rest : List TrkPt),
      (∀ p ∈ l, p.index ≠ pArgs.trimFrom ∧ p.index ≠ pArgs.trimTo) →
      trimGo pArgs true (some pa) dt dd (l ++ rest) =
        trimGo pArgs true (some pa) dt dd rest
  | [], rest, _ => rfl
  | p :: tl, rest, h => by
      have hp := h p (List.mem_cons_self p tl)
      rw [List.cons_append, trimGo, if_neg hp.1, if_neg hp.2, if_pos rfl]
      exact trimGo_inRange pArgs pa dt dd tl rest
        (fun q hq => h q (List.mem_cons_of_mem p hq))

theorem trimGo_keepPre (pArgs : CmdArgs) :
    ∀ (l : List TrkPt) (rest : List TrkPt),
      (∀ p ∈ l, p.index ≠ pArgs.trimFrom ∧ p.index ≠ pArgs.trimTo) →
      trimGo pArgs false none 0 0 (l ++ rest) =
        (trimGo pArgs false none 0 0 rest).map (l ++ ·)
  | [], rest, _ => by
      simp only [List.nil_append]
      cases trimGo pArgs false none 0 0 rest <;> rfl
  | p :: tl, rest, h => by
      have hp := h p (List.mem_cons_self p tl)
      rw [List.cons_append, trimGo, if_neg hp.1, if_neg hp.2,
        if_neg (Bool.false_ne_true)]
      rw [trimGo_keepPre pArgs tl rest
        (fun q hq => h q (List.mem_cons_of_mem p hq))]
      cases trimGo pArgs false none 0 0 rest <;> rfl

theorem trimTrkPts_split (pArgs : CmdArgs) (l1 l2 l3 : List TrkPt)
    (pa pb : TrkPt)
    (hfrom : pa.index = pArgs.trimFrom)
    (hto : pb.index = pArgs.trimTo)
    (hne : pb.index ≠ pArgs.trimFrom)
    (h1 : ∀ p ∈ l1, p.index ≠ pArgs.trimFrom ∧ p.index ≠ pArgs.trimTo)
    (h2 : ∀ p ∈ l2, p.index ≠ pArgs.trimFrom ∧ p.index ≠ pArgs.trimTo)
    (h3 : ∀ p ∈ l3, p.index ≠ pArgs.trimFrom ∧ p.index ≠ pArgs.trimTo) :
    trimTrkPts pArgs (l1 ++ pa :: (l2 ++ pb :: l3)) =
      some (l1 ++ l3.map (trimAdjust (pb.timestamp - pa.timestamp)
        (pb.distance - pa.distance))) := by
  unfold trimTrkPts
  rw [trimGo_keepPre pArgs l1 _ h1]
  have hpa : trimGo pArgs false none 0 0 (pa :: (l2 ++ pb :: l3)) =
      trimGo pArgs true (some pa) 0 0 (l2 ++ pb :: l3) := by
    rw [trimGo, if_pos hfrom]
  rw [hpa, trimGo_inRange pArgs pa 0 0 l2 _ h2]
  have hpb : trimGo pArgs true (some pa) 0 0 (pb :: l3) =
      trimGo pArgs false (some pa) (pb.timestamp - pa.timestamp)
        (pb.distance - pa.distance) l3 := by
    rw [trimGo, if_neg hne, if_pos hto]
  rw [hpb, trimGo_adjusted pArgs pa _ _ l3 h3]
  rfl

/-- Claim C4 (amended): trimming the range `[a, b]` on a track whose
indices locate `a` strictly after the start and `b` strictly before the
end reduces the total track time (last surviving timestamp minus first
surviving timestamp) by exactly `timestamp[b] - timestamp[a]`, and
likewise for the cumulative distance.  The unamended claim fails when
`b` is the last point of the track: then nothing survives after the
trimmed range, so no gap-closing adjustment applies and the total time
drops to that of the prefix (see the counterexample). -/
theorem claimC4 (pArgs : CmdArgs) (l1 l2 l3 : List TrkPt)
    (pa pb : TrkPt)
    (hfrom : pa.index = pArgs.trimFrom)
    (hto : pb.index = pArgs.trimTo)
    (hne : pb.index ≠ pArgs.trimFrom)
    (h1 : ∀ p ∈ l1, p.index ≠ pArgs.trimFrom ∧ p.index ≠ pArgs.trimTo)
    (h2 : ∀ p ∈ l2, p.index ≠ pArgs.trimFrom ∧ p.index ≠ pArgs.trimTo)
    (h3 : ∀ p ∈ l3, p.index ≠ pArgs.trimFrom ∧ p.index ≠ pArgs.trimTo)
    (hl1 : l1 ≠ []) (hl3 : l3 ≠ []) (out : List TrkPt)
    (hout : trimTrkPts pArgs (l1 ++ pa :: (l2 ++ pb :: l3)) = some out) :
    totalTime out =
      totalTime (l1 ++ pa :: (l2 ++ pb :: l3)) -
        (pb.timestamp - pa.timestamp) ∧
    totalDistance out =
      totalDistance (l1 ++ pa :: (l2 ++ pb :: l3)) -
        (pb.distance - pa.distance) := by
  rw [trimTrkPts_split pArgs l1 l2 l3 pa pb hfrom hto hne h1 h2 h3] at hout
  cases hout
  rcases List.eq_nil_or_concat l3 with h | ⟨l3i, z, rfl⟩
  · exact absurd h hl3
  · simp only [List.concat_eq_append]
    have hlast1 : (l1 ++ (l3i ++ [z]).map (trimAdjust
        (pb.timestamp - pa.timestamp) (pb.distance - pa.distance))).getLast? =
        some (trimAdjust (pb.timestamp - pa.timestamp)
          (pb.distance - pa.distance) z) := by
      rw [List.getLast?_append_of_ne_nil _ (by simp), List.map_append]
      exact List.getLast?_concat _
    have hlast2 : (l1 ++ pa :: (l2 ++ pb :: (l3i ++ [z]))).getLast? =
        some z := by
      have he : l1 ++ pa :: (l2 ++ pb :: (l3i ++ [z])) =
          (l1 ++ pa :: l2 ++ pb :: l3i) ++ [z] := by simp
      rw [he]
      exact List.getLast?_concat _
    have hhead1 : (l1 ++ (l3i ++ [z]).map (trimAdjust
        (pb.timestamp - pa.timestamp) (pb.distance - pa.distance))).head? =
        l1.head? := List.head?_append_of_ne_nil l1 hl1
    have hhead2 : (l1 ++ pa :: (l2 ++ pb :: (l3i ++ [z]))).head? =
        l1.head? := List.head?_append_of_ne_nil l1 hl1
    rcases l1 with _ | ⟨x0, l1t⟩
    · exact absurd rfl hl1
    · simp only [List.head?_cons] at hhead1 hhead2
      unfold totalTime totalDistance
      rw [hlast1, hlast2, hhead1, hhead2]
      simp only [Option.elim, trimAdjust]
      constructor <;> ring






/-- Claim C4 (counterexample): trimming `[1, 2]` on a three-point track
with timestamps 0, 10, 20 leaves only the first point, so the total
time after trimming is 0, not `(20 - 0) - (20 - 10) = 10` as the claim
requires. -/
theorem claimC4_counterexample :
    trimTrkPts c4Args c4Pts = some (c4Pts.take 1) ∧
    ¬ (totalTime (c4Pts.take 1) = totalTime c4Pts - ((20 : ℚ) - 10)) := by
  constructor
  · norm_num [trimTrkPts, trimGo, c4Args, c4Pts, defaultArgs, newTrkPt]
  · norm_num [totalTime, c4Pts, newTrkPt]

/-- Claim C4 (witness): the amended theorem applied to a concrete
four-point track trimmed at `[1, 2]`. -/
theorem claimC4_witness :
    totalTime [c4wP0, trimAdjust (c4wP2.timestamp - c4wP1.timestamp)
        (c4wP2.distance - c4wP1.distance) c4wP3] =
      totalTime ([c4wP0] ++ c4wP1 :: ([] ++ c4wP2 :: [c4wP3])) -
        (c4wP2.timestamp - c4wP1.timestamp) ∧
    totalDistance [c4wP0, trimAdjust (c4wP2.timestamp - c4wP1.timestamp)
        (c4wP2.distance - c4wP1.distance) c4wP3] =
      totalDistance ([c4wP0] ++ c4wP1 :: ([] ++ c4wP2 :: [c4wP3])) -
        (c4wP2.distance - c4wP1.distance) := by
  have hout : trimTrkPts c4wArgs ([c4wP0] ++ c4wP1 :: ([] ++ c4wP2 :: [c4wP3])) =
      some [c4wP0, trimAdjust (c4wP2.timestamp - c4wP1.timestamp)
        (c4wP2.distance - c4wP1.distance) c4wP3] := by
    norm_num [trimTrkPts, trimGo, c4wArgs, c4wP0, c4wP1, c4wP2, c4wP3,
      defaultArgs, newTrkPt, trimAdjust]
  refine claimC4 c4wArgs [c4wP0] [] [c4wP3] c4wP1 c4wP2 rfl rfl
    (by norm_num [c4wArgs, c4wP2, defaultArgs, newTrkPt]) ?_ ?_ ?_
    (by simp) (by simp) _ hout
  · intro p hp
    simp only [List.mem_singleton] at hp
    rw [hp]
    norm_num [c4wArgs, c4wP0, defaultArgs, newTrkPt]
  · intro p hp
    simp at hp
  · intro p hp
    simp only [List.mem_singleton] at hp
    rw [hp]
    norm_num [c4wArgs, c4wP3, defaultArgs, newTrkPt]

theorem cTruncInt_intCast (k : ℤ) : cTruncInt (k : ℚ) = k := by
  unfold cTruncInt
  split_ifs
  · exact Int.ceil_intCast k
  · exact Int.floor_intCast k

theorem sideSum_stop (m : XmaMethod) (n i : ℤ) (hni : ¬ i < n) :
    ∀ vals : List ℚ, sideSum m n i vals = (0, 0)
  | [] => rfl
  | v :: vs => by simp only [sideSum, if_neg hni]

theorem sideSum_shift (m : XmaMethod) :
    ∀ (vals : List ℚ) (n i : ℤ),
      sideSum m n (i + 1) vals = sideSum m (n - 1) i vals
  | [], _, _ => rfl
  | v :: vs, n, i => by
      simp only [sideSum]
      by_cases h : i + 1 < n
      · rw [if_pos h, if_pos (show i < n - 1 by omega)]
        rw [sideSum_shift m vs n (i + 1)]
        cases m
        · rfl
        · have he : n - (i + 1) = n - 1 - i := by ring
          rw [he]
      · rw [if_neg h, if_neg (show ¬ i < n - 1 by omega)]

theorem sideSum_simple :
    ∀ (vals : List ℚ) (n : ℤ), 0 ≤ n → n.toNat ≤ vals.length →
      sideSum .simple n 0 vals = ((vals.take n.toNat).sum, n)
  | [], n, hn, hlen => by
      simp only [List.length_nil, Nat.le_zero] at hlen
      have h0 : n = 0 := by omega
      subst h0
      simp [sideSum_stop]
  | v :: vs, n, hn, hlen => by
      by_cases h0 : 0 < n
      · simp only [sideSum, if_pos h0]
        rw [sideSum_shift .simple vs n 0]
        have hrec := sideSum_simple vs (n - 1) (by omega) (by
          simp only [List.length_cons] at hlen
          omega)
        rw [hrec]
        have ht : n.toNat = (n - 1).toNat + 1 := by omega
        rw [ht]
        simp only [List.take_succ_cons, List.sum_cons, Prod.mk.injEq]
        refine ⟨by push_cast; ring, by ring⟩
      · have hz : n = 0 := by omega
        subst hz
        rw [sideSum_stop .simple 0 0 (by omega)]
        simp

theorem compMovAvgVal_one (m : XmaMethod) (metric : XmaMetric)
    (rb : List TrkPt) (p : TrkPt) (a : List TrkPt) :
    compMovAvgVal m metric 1 rb p a = xmaGetVal p metric := by
  have hn : ((1 : ℤ) - 1).tdiv 2 = 0 := by norm_num
  simp only [compMovAvgVal, hn]
  rw [sideSum_stop m 0 0 (by omega), sideSum_stop m 0 0 (by omega)]
  cases m <;> norm_num

theorem xmaSetVal_getVal (p : TrkPt) (metric : XmaMetric) :
    xmaSetVal p metric (xmaGetVal p metric) = (p, false) := by
  cases metric <;> simp [xmaSetVal, xmaGetVal, cTruncInt_intCast]

theorem compMovAvgPt_one (m : XmaMethod) (metric : XmaMetric)
    (rb : List TrkPt) (p : TrkPt) (a : List TrkPt) :
    compMovAvgPt m metric 1 rb p a = p := by
  simp only [compMovAvgPt, compMovAvgVal_one, xmaSetVal_getVal]
  simp

theorem smoothGo_one (pArgs : CmdArgs) (hW : pArgs.xmaWindow = 1) :
    ∀ (l revDone : List TrkPt), smoothGo pArgs revDone l = l
  | [], _ => rfl
  | p2 :: tl, revDone => by
      simp only [smoothGo, hW, compMovAvgPt_one, ite_self]
      rw [smoothGo_one pArgs hW tl]

/-- Claim C5 (amended): a window of size 1 leaves the whole smoothing
pass a no-op, and the simple moving average computed at a point with
`n` neighbors on each side is the unweighted mean of the metric values
currently in the window.  The unamended claim fails for interior points
because smoothing is in place: the preceding half of the window holds
already-smoothed values, not the raw pre-smoothing ones (see the
counterexample). -/
theorem claimC5 (pArgs : CmdArgs) (l : List TrkPt)
    (metric : XmaMetric) (n : ℤ) (revBefore after : List TrkPt) (p : TrkPt)
    (hW : pArgs.xmaWindow = 1) (hn : 0 ≤ n)
    (hb : n.toNat ≤ revBefore.length) (ha : n.toNat ≤ after.length) :
    smoothMetric pArgs l = l ∧
    compMovAvgVal .simple metric (2 * n + 1) revBefore p after =
      (((revBefore.take n.toNat) ++ p :: (after.take n.toNat)).map
        (fun q => xmaGetVal q metric)).sum / ((2 * n + 1 : ℤ) : ℚ) := by
  constructor
  · match l with
    | [] => rfl
    | p1 :: tl =>
      rw [smoothMetric, smoothGo_one pArgs hW]
  · have hdiv : ((2 * n + 1 : ℤ) - 1).tdiv 2 = n := by
      rw [show (2 * n + 1 : ℤ) - 1 = 2 * n by ring]
      exact Int.mul_tdiv_cancel_left n (by norm_num)
    simp only [compMovAvgVal, hdiv]
    rw [sideSum_simple _ n hn (by simpa using hb),
      sideSum_simple _ n hn (by simpa using ha)]
    rw [← List.map_take, ← List.map_take]
    simp only [List.map_append, List.sum_append, List.map_cons, List.sum_cons]
    have hcast : ((n + 1 + n : ℤ) : ℚ) = ((2 * n + 1 : ℤ) : ℚ) := by
      push_cast
      ring
    rw [hcast]
    push_cast
    ring_nf

/-- Claim C5 (counterexample): simple smoothing of the elevations
0, 6, 0, 0, 0 with window 3 gives the interior third point the value
2/3 (its window already contains the smoothed value 2 of the second
point), not the raw-window mean 2 the claim requires. -/
theorem claimC5_counterexample :
    (smoothMetric c5Args c5Pts).map (·.elevation) = [0, 2, 2/3, 2/9, 1/9] ∧
    specSimpleRawMean .elevation 1
      [c5Pts.get ⟨1, by norm_num [c5Pts]⟩, c5Pts.get ⟨0, by norm_num [c5Pts]⟩]
      (c5Pts.get ⟨2, by norm_num [c5Pts]⟩)
      [c5Pts.get ⟨3, by norm_num [c5Pts]⟩, c5Pts.get ⟨4, by norm_num [c5Pts]⟩] = 2 ∧
    (2/3 : ℚ) ≠ 2 := by
  refine ⟨?_, ?_, by norm_num⟩
  · have hne : (XmaMetric.elevation = XmaMetric.grade) = False := by
      simp
    norm_num [smoothMetric, smoothGo, compMovAvgPt, compMovAvgVal, sideSum,
      xmaGetVal, xmaSetVal, pointWithinRange, c5Args, c5Pts, defaultArgs,
      newTrkPt, hne]
  · norm_num [specSimpleRawMean, c5Pts, xmaGetVal, newTrkPt]


/-- Claim C5 (witness): the amended theorem applied to a concrete
window-1 pass and a concrete simple average with one neighbor on each
side. -/
theorem claimC5_witness :
    smoothMetric c5wArgs c5Pts = c5Pts ∧
    compMovAvgVal .simple .elevation (2 * 1 + 1) c5Pts
        { newTrkPt 9 with elevation := 3 } c5Pts =
      (((c5Pts.take 1) ++ { newTrkPt 9 with elevation := 3 } ::
          (c5Pts.take 1)).map (fun q => xmaGetVal q .elevation)).sum /
        ((2 * 1 + 1 : ℤ) : ℚ) := by
  exact claimC5 c5wArgs c5Pts .elevation 1 c5Pts c5Pts
    { newTrkPt 9 with elevation := 3 } rfl (by norm_num)
    (by norm_num [c5Pts]) (by norm_num [c5Pts])

theorem sideSum_weighed_code :
    ∀ (vals : List ℚ) (n : ℤ),
      sideSum .weighed n 0 vals = codeWeighedSide n vals
  | [], _ => rfl
  | v :: vs, n => by
      rw [codeWeighedSide]
      by_cases h0 : 0 < n
      · simp only [sideSum, if_pos h0]
        rw [sideSum_shift .weighed vs n 0]
        rw [sideSum_weighed_code vs (n - 1)]
        norm_num
      · simp only [sideSum, if_neg h0]

theorem codeWeighedSide_denom :
    ∀ (vals : List ℚ) (n : ℤ), 0 ≤ n → n.toNat ≤ vals.length →
      2 * (codeWeighedSide n vals).2 = n * (n + 1)
  | [], n, hn, hlen => by
      simp only [List.length_nil, Nat.le_zero] at hlen
      have h0 : n = 0 := by omega
      subst h0
      simp [codeWeighedSide]
  | v :: vs, n, hn, hlen => by
      by_cases h0 : 0 < n
      · rw [codeWeighedSide, if_pos h0]
        have ih := codeWeighedSide_denom vs (n - 1) (by omega) (by
          simp only [List.length_cons] at hlen
          omega)
        dsimp only
        linear_combination ih
      · have hz : n = 0 := by omega
        subst hz
        simp [codeWeighedSide]

/-- Claim C6 (amended): the weighted side loop spends the weights
`n, n-1, ..., 1` on the points walking away from the center (that is,
the `i`-th point away gets weight `n - i + 1`, not `n - i`), stopping
at the end of the track or after `n` points, so a weight of 0 is never
spent on any point, not even at a truncated boundary window; over a
fully populated side the weights add up to `n(n+1)/2`.  The center
point does get weight `n + 1` as claimed. -/
theorem claimC6 (n : ℤ) (vals : List ℚ) (hn : 0 ≤ n)
    (hlen : n.toNat ≤ vals.length) :
    sideSum .weighed n 0 vals = codeWeighedSide n vals ∧
    2 * (sideSum .weighed n 0 vals).2 = n * (n + 1) := by
  refine ⟨sideSum_weighed_code vals n, ?_⟩
  rw [sideSum_weighed_code vals n]
  exact codeWeighedSide_denom vals n hn hlen

/-- Claim C6 (counterexample): for window 3 (`n = 1`) on the values
0, 4, 0 the code computes `(0·1 + 4·2 + 0·1)/4 = 2`, while the spec's
weighting (`i`-th point away gets `n − i`, so the direct neighbors get
weight 0) would give 4. -/
theorem claimC6_counterexample :
    compMovAvgVal .weighed .elevation 3 [c6Side] c6Center [c6Side] = 2 ∧
    specWeighedAvg .elevation 1 [c6Side] c6Center [c6Side] = 4 ∧
    (2 : ℚ) ≠ 4 := by
  refine ⟨?_, ?_, by norm_num⟩
  · norm_num [compMovAvgVal, sideSum, xmaGetVal, c6Side, c6Center, newTrkPt]
  · norm_num [specWeighedAvg, specSide, xmaGetVal, c6Side, c6Center, newTrkPt]

/-- Claim C6 (witness): the amended theorem instantiated at `n = 2`
over a concrete two-value side. -/
theorem claimC6_witness :
    sideSum .weighed 2 0 [(5:ℚ), 7] = codeWeighedSide 2 [(5:ℚ), 7] ∧
    2 * (sideSum .weighed 2 0 [(5:ℚ), 7]).2 = 2 * (2 + 1) :=
  claimC6 2 [5, 7] (by norm_num) (by norm_num)

theorem minMaxStep_cadence (m : ℕ) (s : Agg) (p : TrkPt) :
    (minMaxStep m s p).cadence = s.cadence + p.cadence := by
  simp only [minMaxStep, mmStepSums]
  have h1 : ∀ t : Agg, (mmStepGain t p).cadence = t.cadence := by
    intro t
    simp only [mmStepGain, apply_ite (Agg.cadence)]
    split_ifs <;> rfl
  have h2 : ∀ t : Agg, (mmStepDeltaG t p).cadence = t.cadence := by
    intro t
    simp only [mmStepDeltaG, apply_ite (Agg.cadence)]
    split_ifs <;> rfl
  have h3 : ∀ t : Agg, (mmStepGrade t p).cadence = t.cadence := by
    intro t
    simp only [mmStepGrade, apply_ite (Agg.cadence)]
    split_ifs <;> rfl
  have h4 : ∀ t : Agg, (mmStepElev t p).cadence = t.cadence := by
    intro t
    simp only [mmStepElev, apply_ite (Agg.cadence)]
    split_ifs <;> rfl
  have h5 : ∀ t : Agg, (mmStepTemp m t p).cadence = t.cadence := by
    intro t
    simp only [mmStepTemp, apply_ite (Agg.cadence)]
    split_ifs <;> rfl
  have h6 : ∀ t : Agg, (mmStepSpeed t p).cadence = t.cadence := by
    intro t
    simp only [mmStepSpeed, apply_ite (Agg.cadence)]
    split_ifs <;> rfl
  have h7 : ∀ t : Agg, (mmStepPower m t p).cadence = t.cadence := by
    intro t
    simp only [mmStepPower, apply_ite (Agg.cadence)]
    split_ifs <;> rfl
  have h8 : ∀ t : Agg, (mmStepHR m t p).cadence = t.cadence := by
    intro t
    simp only [mmStepHR, apply_ite (Agg.cadence)]
    split_ifs <;> rfl
  have h9 : ∀ t : Agg, (mmStepCadence m t p).cadence = t.cadence := by
    intro t
    simp only [mmStepCadence, apply_ite (Agg.cadence)]
    split_ifs <;> rfl
  rw [h1, h2, h3, h4, h5, h6, h7, h8, h9]

theorem minMaxStep_heartRate (m : ℕ) (s : Agg) (p : TrkPt) :
    (minMaxStep m s p).heartRate = s.heartRate + p.heartRate := by
  simp only [minMaxStep, mmStepSums]
  have h1 : ∀ t : Agg, (mmStepGain t p).heartRate = t.heartRate := by
    intro t
    simp only [mmStepGain, apply_ite (Agg.heartRate)]
    split_ifs <;> rfl
  have h2 : ∀ t : Agg, (mmStepDeltaG t p).heartRate = t.heartRate := by
    intro t
    simp only [mmStepDeltaG, apply_ite (Agg.heartRate)]
    split_ifs <;> rfl
  have h3 : ∀ t : Agg, (mmStepGrade t p).heartRate = t.heartRate := by
    intro t
    simp only [mmStepGrade, apply_ite (Agg.heartRate)]
    split_ifs <;> rfl
  have h4 : ∀ t : Agg, (mmStepElev t p).heartRate = t.heartRate := by
    intro t
    simp only [mmStepElev, apply_ite (Agg.heartRate)]
    split_ifs <;> rfl
  have h5 : ∀ t : Agg, (mmStepTemp m t p).heartRate = t.heartRate := by
    intro t
    simp only [mmStepTemp, apply_ite (Agg.heartRate)]
    split_ifs <;> rfl
  have h6 : ∀ t : Agg, (mmStepSpeed t p).heartRate = t.heartRate := by
    intro t
    simp only [mmStepSpeed, apply_ite (Agg.heartRate)]
    split_ifs <;> rfl
  have h7 : ∀ t : Agg, (mmStepPower m t p).heartRate = t.heartRate := by
    intro t
    simp only [mmStepPower, apply_ite (Agg.heartRate)]
    split_ifs <;> rfl
  have h8 : ∀ t : Agg, (mmStepHR m t p).heartRate = t.heartRate := by
    intro t
    simp only [mmStepHR, apply_ite (Agg.heartRate)]
    split_ifs <;> rfl
  have h9 : ∀ t : Agg, (mmStepCadence m t p).heartRate = t.heartRate := by
    intro t
    simp only [mmStepCadence, apply_ite (Agg.heartRate)]
    split_ifs <;> rfl
  rw [h1, h2, h3, h4, h5, h6, h7, h8, h9]

theorem minMaxStep_powerSum (m : ℕ) (s : Agg) (p : TrkPt) :
    (minMaxStep m s p).power = s.power + p.power := by
  simp only [minMaxStep, mmStepSums]
  have h1 : ∀ t : Agg, (mmStepGain t p).power = t.power := by
    intro t
    simp only [mmStepGain, apply_ite (Agg.power)]
    split_ifs <;> rfl
  have h2 : ∀ t : Agg, (mmStepDeltaG t p).power = t.power := by
    intro t
    simp only [mmStepDeltaG, apply_ite (Agg.power)]
    split_ifs <;> rfl
  have h3 : ∀ t : Agg, (mmStepGrade t p).power = t.power := by
    intro t
    simp only [mmStepGrade, apply_ite (Agg.power)]
    split_ifs <;> rfl
  have h4 : ∀ t : Agg, (mmStepElev t p).power = t.power := by
    intro t
    simp only [mmStepElev, apply_ite (Agg.power)]
    split_ifs <;> rfl
  have h5 : ∀ t : Agg, (mmStepTemp m t p).power = t.power := by
    intro t
    simp only [mmStepTemp, apply_ite (Agg.power)]
    split_ifs <;> rfl
  have h6 : ∀ t : Agg, (mmStepSpeed t p).power = t.power := by
    intro t
    simp only [mmStepSpeed, apply_ite (Agg.power)]
    split_ifs <;> rfl
  have h7 : ∀ t : Agg, (mmStepPower m t p).power = t.power := by
    intro t
    simp only [mmStepPower, apply_ite (Agg.power)]
    split_ifs <;> rfl
  have h8 : ∀ t : Agg, (mmStepHR m t p).power = t.power := by
    intro t
    simp only [mmStepHR, apply_ite (Agg.power)]
    split_ifs <;> rfl
  have h9 : ∀ t : Agg, (mmStepCadence m t p).power = t.power := by
    intro t
    simp only [mmStepCadence, apply_ite (Agg.power)]
    split_ifs <;> rfl
  rw [h1, h2, h3, h4, h5, h6, h7, h8, h9]

theorem minMaxStep_tempSum (m : ℕ) (s : Agg) (p : TrkPt) :
    (minMaxStep m s p).temp = s.temp + p.ambTemp := by
  simp only [minMaxStep, mmStepSums]
  have h1 : ∀ t : Agg, (mmStepGain t p).temp = t.temp := by
    intro t
    simp only [mmStepGain, apply_ite (Agg.temp)]
    split_ifs <;> rfl
  have h2 : ∀ t : Agg, (mmStepDeltaG t p).temp = t.temp := by
    intro t
    simp only [mmStepDeltaG, apply_ite (Agg.temp)]
    split_ifs <;> rfl
  have h3 : ∀ t : Agg, (mmStepGrade t p).temp = t.temp := by
    intro t
    simp only [mmStepGrade, apply_ite (Agg.temp)]
    split_ifs <;> rfl
  have h4 : ∀ t : Agg, (mmStepElev t p).temp = t.temp := by
    intro t
    simp only [mmStepElev, apply_ite (Agg.temp)]
    split_ifs <;> rfl
  have h5 : ∀ t : Agg, (mmStepTemp m t p).temp = t.temp := by
    intro t
    simp only [mmStepTemp, apply_ite (Agg.temp)]
    split_ifs <;> rfl
  have h6 : ∀ t : Agg, (mmStepSpeed t p).temp = t.temp := by
    intro t
    simp only [mmStepSpeed, apply_ite (Agg.temp)]
    split_ifs <;> rfl
  have h7 : ∀ t : Agg, (mmStepPower m t p).temp = t.temp := by
    intro t
    simp only [mmStepPower, apply_ite (Agg.temp)]
    split_ifs <;> rfl
  have h8 : ∀ t : Agg, (mmStepHR m t p).temp = t.temp := by
    intro t
    simp only [mmStepHR, apply_ite (Agg.temp)]
    split_ifs <;> rfl
  have h9 : ∀ t : Agg, (mmStepCadence m t p).temp = t.temp := by
    intro t
    simp only [mmStepCadence, apply_ite (Agg.temp)]
    split_ifs <;> rfl
  rw [h1, h2, h3, h4, h5, h6, h7, h8, h9]

theorem minMaxStep_gradeSum (m : ℕ) (s : Agg) (p : TrkPt) :
    (minMaxStep m s p).grade = s.grade + p.grade := by
  simp only [minMaxStep, mmStepSums]
  have h1 : ∀ t : Agg, (mmStepGain t p).grade = t.grade := by
    intro t
    simp only [mmStepGain, apply_ite (Agg.grade)]
    split_ifs <;> rfl
  have h2 : ∀ t : Agg, (mmStepDeltaG t p).grade = t.grade := by
    intro t
    simp only [mmStepDeltaG, apply_ite (Agg.grade)]
    split_ifs <;> rfl
  have h3 : ∀ t : Agg, (mmStepGrade t p).grade = t.grade := by
    intro t
    simp only [mmStepGrade, apply_ite (Agg.grade)]
    split_ifs <;> rfl
  have h4 : ∀ t : Agg, (mmStepElev t p).grade = t.grade := by
    intro t
    simp only [mmStepElev, apply_ite (Agg.grade)]
    split_ifs <;> rfl
  have h5 : ∀ t : Agg, (mmStepTemp m t p).grade = t.grade := by
    intro t
    simp only [mmStepTemp, apply_ite (Agg.grade)]
    split_ifs <;> rfl
  have h6 : ∀ t : Agg, (mmStepSpeed t p).grade = t.grade := by
    intro t
    simp only [mmStepSpeed, apply_ite (Agg.grade)]
    split_ifs <;> rfl
  have h7 : ∀ t : Agg, (mmStepPower m t p).grade = t.grade := by
    intro t
    simp only [mmStepPower, apply_ite (Agg.grade)]
    split_ifs <;> rfl
  have h8 : ∀ t : Agg, (mmStepHR m t p).grade = t.grade := by
    intro t
    simp only [mmStepHR, apply_ite (Agg.grade)]
    split_ifs <;> rfl
  have h9 : ∀ t : Agg, (mmStepCadence m t p).grade = t.grade := by
    intro t
    simp only [mmStepCadence, apply_ite (Agg.grade)]
    split_ifs <;> rfl
  rw [h1, h2, h3, h4, h5, h6, h7, h8, h9]

theorem minMaxStep_elevGain (m : ℕ) (s : Agg) (p : TrkPt) :
    (minMaxStep m s p).elevGain = s.elevGain + (if p.rise ≥ 0 then p.rise else 0) := by
  simp only [minMaxStep]
  have hs : ∀ t : Agg, (mmStepSums t p).elevGain = t.elevGain := fun t => rfl
  rw [hs]
  have hg : ∀ t : Agg, (mmStepGain t p).elevGain =
      t.elevGain + (if p.rise ≥ 0 then p.rise else 0) := by
    intro t
    simp only [mmStepGain, apply_ite (Agg.elevGain)]
    split_ifs <;> simp
  rw [hg]
  have h1 : ∀ t : Agg, (mmStepDeltaG t p).elevGain = t.elevGain := by
    intro t
    simp only [mmStepDeltaG, apply_ite (Agg.elevGain)]
    split_ifs <;> rfl
  have h2 : ∀ t : Agg, (mmStepGrade t p).elevGain = t.elevGain := by
    intro t
    simp only [mmStepGrade, apply_ite (Agg.elevGain)]
    split_ifs <;> rfl
  have h3 : ∀ t : Agg, (mmStepElev t p).elevGain = t.elevGain := by
    intro t
    simp only [mmStepElev, apply_ite (Agg.elevGain)]
    split_ifs <;> rfl
  have h4 : ∀ t : Agg, (mmStepTemp m t p).elevGain = t.elevGain := by
    intro t
    simp only [mmStepTemp, apply_ite (Agg.elevGain)]
    split_ifs <;> rfl
  have h5 : ∀ t : Agg, (mmStepSpeed t p).elevGain = t.elevGain := by
    intro t
    simp only [mmStepSpeed, apply_ite (Agg.elevGain)]
    split_ifs <;> rfl
  have h6 : ∀ t : Agg, (mmStepPower m t p).elevGain = t.elevGain := by
    intro t
    simp only [mmStepPower, apply_ite (Agg.elevGain)]
    split_ifs <;> rfl
  have h7 : ∀ t : Agg, (mmStepHR m t p).elevGain = t.elevGain := by
    intro t
    simp only [mmStepHR, apply_ite (Agg.elevGain)]
    split_ifs <;> rfl
  have h8 : ∀ t : Agg, (mmStepCadence m t p).elevGain = t.elevGain := by
    intro t
    simp only [mmStepCadence, apply_ite (Agg.elevGain)]
    split_ifs <;> rfl
  rw [h1, h2, h3, h4, h5, h6, h7, h8]

theorem minMaxStep_elevLoss (m : ℕ) (s : Agg) (p : TrkPt) :
    (minMaxStep m s p).elevLoss = s.elevLoss + (if p.rise ≥ 0 then 0 else -p.rise) := by
  simp only [minMaxStep]
  have hs : ∀ t : Agg, (mmStepSums t p).elevLoss = t.elevLoss := fun t => rfl
  rw [hs]
  have hg : ∀ t : Agg, (mmStepGain t p).elevLoss =
      t.elevLoss + (if p.rise ≥ 0 then 0 else -p.rise) := by
    intro t
    simp only [mmStepGain, apply_ite (Agg.elevLoss)]
    split_ifs <;> simp
  rw [hg]
  have h1 : ∀ t : Agg, (mmStepDeltaG t p).elevLoss = t.elevLoss := by
    intro t
    simp only [mmStepDeltaG, apply_ite (Agg.elevLoss)]
    split_ifs <;> rfl
  have h2 : ∀ t : Agg, (mmStepGrade t p).elevLoss = t.elevLoss := by
    intro t
    simp only [mmStepGrade, apply_ite (Agg.elevLoss)]
    split_ifs <;> rfl
  have h3 : ∀ t : Agg, (mmStepElev t p).elevLoss = t.elevLoss := by
    intro t
    simp only [mmStepElev, apply_ite (Agg.elevLoss)]
    split_ifs <;> rfl
  have h4 : ∀ t : Agg, (mmStepTemp m t p).elevLoss = t.elevLoss := by
    intro t
    simp only [mmStepTemp, apply_ite (Agg.elevLoss)]
    split_ifs <;> rfl
  have h5 : ∀ t : Agg, (mmStepSpeed t p).elevLoss = t.elevLoss := by
    intro t
    simp only [mmStepSpeed, apply_ite (Agg.elevLoss)]
    split_ifs <;> rfl
  have h6 : ∀ t : Agg, (mmStepPower m t p).elevLoss = t.elevLoss := by
    intro t
    simp only [mmStepPower, apply_ite (Agg.elevLoss)]
    split_ifs <;> rfl
  have h7 : ∀ t : Agg, (mmStepHR m t p).elevLoss = t.elevLoss := by
    intro t
    simp only [mmStepHR, apply_ite (Agg.elevLoss)]
    split_ifs <;> rfl
  have h8 : ∀ t : Agg, (mmStepCadence m t p).elevLoss = t.elevLoss := by
    intro t
    simp only [mmStepCadence, apply_ite (Agg.elevLoss)]
    split_ifs <;> rfl
  rw [h1, h2, h3, h4, h5, h6, h7, h8]
theorem minMaxStep_minCadence_zero (m : ℕ) (s : Agg) (p : TrkPt)
    (hz : p.cadence = 0) :
    (minMaxStep m s p).minCadence = s.minCadence ∧
    (minMaxStep m s p).minCadenceTrkPt = s.minCadenceTrkPt := by
  simp only [minMaxStep, mmStepSums]
  have hown : ∀ t : Agg, (mmStepCadence m t p).minCadence = t.minCadence ∧
      (mmStepCadence m t p).minCadenceTrkPt = t.minCadenceTrkPt := by
    intro t
    simp only [mmStepCadence, apply_ite (Agg.minCadence), apply_ite (Agg.minCadenceTrkPt)]
    split_ifs with h1 h2 h3 <;> simp_all
  have hp1a : ∀ t : Agg, (mmStepGain t p).minCadence = t.minCadence := by
    intro t
    simp only [mmStepGain, apply_ite (Agg.minCadence)]
    split_ifs <;> rfl
  have hp1b : ∀ t : Agg, (mmStepGain t p).minCadenceTrkPt = t.minCadenceTrkPt := by
    intro t
    simp only [mmStepGain, apply_ite (Agg.minCadenceTrkPt)]
    split_ifs <;> rfl
  have hp2a : ∀ t : Agg, (mmStepDeltaG t p).minCadence = t.minCadence := by
    intro t
    simp only [mmStepDeltaG, apply_ite (Agg.minCadence)]
    split_ifs <;> rfl
  have hp2b : ∀ t : Agg, (mmStepDeltaG t p).minCadenceTrkPt = t.minCadenceTrkPt := by
    intro t
    simp only [mmStepDeltaG, apply_ite (Agg.minCadenceTrkPt)]
    split_ifs <;> rfl
  have hp3a : ∀ t : Agg, (mmStepGrade t p).minCadence = t.minCadence := by
    intro t
    simp only [mmStepGrade, apply_ite (Agg.minCadence)]
    split_ifs <;> rfl
  have hp3b : ∀ t : Agg, (mmStepGrade t p).minCadenceTrkPt = t.minCadenceTrkPt := by
    intro t
    simp only [mmStepGrade, apply_ite (Agg.minCadenceTrkPt)]
    split_ifs <;> rfl
  have hp4a : ∀ t : Agg, (mmStepElev t p).minCadence = t.minCadence := by
    intro t
    simp only [mmStepElev, apply_ite (Agg.minCadence)]
    split_ifs <;> rfl
  have hp4b : ∀ t : Agg, (mmStepElev t p).minCadenceTrkPt = t.minCadenceTrkPt := by
    intro t
    simp only [mmStepElev, apply_ite (Agg.minCadenceTrkPt)]
    split_ifs <;> rfl
  have hp5a : ∀ t : Agg, (mmStepTemp m t p).minCadence = t.minCadence := by
    intro t
    simp only [mmStepTemp, apply_ite (Agg.minCadence)]
    split_ifs <;> rfl
  have hp5b : ∀ t : Agg, (mmStepTemp m t p).minCadenceTrkPt = t.minCadenceTrkPt := by
    intro t
    simp only [mmStepTemp, apply_ite (Agg.minCadenceTrkPt)]
    split_ifs <;> rfl
  have hp6a : ∀ t : Agg, (mmStepSpeed t p).minCadence = t.minCadence := by
    intro t
    simp only [mmStepSpeed, apply_ite (Agg.minCadence)]
    split_ifs <;> rfl
  have hp6b : ∀ t : Agg, (mmStepSpeed t p).minCadenceTrkPt = t.minCadenceTrkPt := by
    intro t
    simp only [mmStepSpeed, apply_ite (Agg.minCadenceTrkPt)]
    split_ifs <;> rfl
  have hp7a : ∀ t : Agg, (mmStepPower m t p).minCadence = t.minCadence := by
    intro t
    simp only [mmStepPower, apply_ite (Agg.minCadence)]
    split_ifs <;> rfl
  have hp7b : ∀ t : Agg, (mmStepPower m t p).minCadenceTrkPt = t.minCadenceTrkPt := by
    intro t
    simp only [mmStepPower, apply_ite (Agg.minCadenceTrkPt)]
    split_ifs <;> rfl
  have hp8a : ∀ t : Agg, (mmStepHR m t p).minCadence = t.minCadence := by
    intro t
    simp only [mmStepHR, apply_ite (Agg.minCadence)]
    split_ifs <;> rfl
  have hp8b : ∀ t : Agg, (mmStepHR m t p).minCadenceTrkPt = t.minCadenceTrkPt := by
    intro t
    simp only [mmStepHR, apply_ite (Agg.minCadenceTrkPt)]
    split_ifs <;> rfl
  have hOWNa : ∀ t : Agg, (mmStepCadence m t p).minCadence = t.minCadence := fun t => (hown t).1
  have hOWNb : ∀ t : Agg, (mmStepCadence m t p).minCadenceTrkPt = t.minCadenceTrkPt := fun t => (hown t).2
  constructor
  · rw [hp1a, hp2a, hp3a, hp4a, hp5a, hp6a, hp7a, hp8a, hOWNa]
  · rw [hp1b, hp2b, hp3b, hp4b, hp5b, hp6b, hp7b, hp8b, hOWNb]

theorem minMaxStep_minHeartRate_zero (m : ℕ) (s : Agg) (p : TrkPt)
    (hz : p.heartRate = 0) :
    (minMaxStep m s p).minHeartRate = s.minHeartRate ∧
    (minMaxStep m s p).minHeartRateTrkPt = s.minHeartRateTrkPt := by
  simp only [minMaxStep, mmStepSums]
  have hown : ∀ t : Agg, (mmStepHR m t p).minHeartRate = t.minHeartRate ∧
      (mmStepHR m t p).minHeartRateTrkPt = t.minHeartRateTrkPt := by
    intro t
    simp only [mmStepHR, apply_ite (Agg.minHeartRate), apply_ite (Agg.minHeartRateTrkPt)]
    split_ifs with h1 h2 h3 <;> simp_all
  have hp1a : ∀ t : Agg, (mmStepGain t p).minHeartRate = t.minHeartRate := by
    intro t
    simp only [mmStepGain, apply_ite (Agg.minHeartRate)]
    split_ifs <;> rfl
  have hp1b : ∀ t : Agg, (mmStepGain t p).minHeartRateTrkPt = t.minHeartRateTrkPt := by
    intro t
    simp only [mmStepGain, apply_ite (Agg.minHeartRateTrkPt)]
    split_ifs <;> rfl
  have hp2a : ∀ t : Agg, (mmStepDeltaG t p).minHeartRate = t.minHeartRate := by
    intro t
    simp only [mmStepDeltaG, apply_ite (Agg.minHeartRate)]
    split_ifs <;> rfl
  have hp2b : ∀ t : Agg, (mmStepDeltaG t p).minHeartRateTrkPt = t.minHeartRateTrkPt := by
    intro t
    simp only [mmStepDeltaG, apply_ite (Agg.minHeartRateTrkPt)]
    split_ifs <;> rfl
  have hp3a : ∀ t : Agg, (mmStepGrade t p).minHeartRate = t.minHeartRate := by
    intro t
    simp only [mmStepGrade, apply_ite (Agg.minHeartRate)]
    split_ifs <;> rfl
  have hp3b : ∀ t : Agg, (mmStepGrade t p).minHeartRateTrkPt = t.minHeartRateTrkPt := by
    intro t
    simp only [mmStepGrade, apply_ite (Agg.minHeartRateTrkPt)]
    split_ifs <;> rfl
  have hp4a : ∀ t : Agg, (mmStepElev t p).minHeartRate = t.minHeartRate := by
    intro t
    simp only [mmStepElev, apply_ite (Agg.minHeartRate)]
    split_ifs <;> rfl
  have hp4b : ∀ t : Agg, (mmStepElev t p).minHeartRateTrkPt = t.minHeartRateTrkPt := by
    intro t
    simp only [mmStepElev, apply_ite (Agg.minHeartRateTrkPt)]
    split_ifs <;> rfl
  have hp5a : ∀ t : Agg, (mmStepTemp m t p).minHeartRate = t.minHeartRate := by
    intro t
    simp only [mmStepTemp, apply_ite (Agg.minHeartRate)]
    split_ifs <;> rfl
  have hp5b : ∀ t : Agg, (mmStepTemp m t p).minHeartRateTrkPt = t.minHeartRateTrkPt := by
    intro t
    simp only [mmStepTemp, apply_ite (Agg.minHeartRateTrkPt)]
    split_ifs <;> rfl
  have hp6a : ∀ t : Agg, (mmStepSpeed t p).minHeartRate = t.minHeartRate := by
    intro t
    simp only [mmStepSpeed, apply_ite (Agg.minHeartRate)]
    split_ifs <;> rfl
  have hp6b : ∀ t : Agg, (mmStepSpeed t p).minHeartRateTrkPt = t.minHeartRateTrkPt := by
    intro t
    simp only [mmStepSpeed, apply_ite (Agg.minHeartRateTrkPt)]
    split_ifs <;> rfl
  have hp7a : ∀ t : Agg, (mmStepPower m t p).minHeartRate = t.minHeartRate := by
    intro t
    simp only [mmStepPower, apply_ite (Agg.minHeartRate)]
    split_ifs <;> rfl
  have hp7b : ∀ t : Agg, (mmStepPower m t p).minHeartRateTrkPt = t.minHeartRateTrkPt := by
    intro t
    simp only [mmStepPower, apply_ite (Agg.minHeartRateTrkPt)]
    split_ifs <;> rfl
  have hp8a : ∀ t : Agg, (mmStepCadence m t p).minHeartRate = t.minHeartRate := by
    intro t
    simp only [mmStepCadence, apply_ite (Agg.minHeartRate)]
    split_ifs <;> rfl
  have hp8b : ∀ t : Agg, (mmStepCadence m t p).minHeartRateTrkPt = t.minHeartRateTrkPt := by
    intro t
    simp only [mmStepCadence, apply_ite (Agg.minHeartRateTrkPt)]
    split_ifs <;> rfl
  have hOWNa : ∀ t : Agg, (mmStepHR m t p).minHeartRate = t.minHeartRate := fun t => (hown t).1
  have hOWNb : ∀ t : Agg, (mmStepHR m t p).minHeartRateTrkPt = t.minHeartRateTrkPt := fun t => (hown t).2
  constructor
  · rw [hp1a, hp2a, hp3a, hp4a, hp5a, hp6a, hp7a, hOWNa, hp8a]
  · rw [hp1b, hp2b, hp3b, hp4b, hp5b, hp6b, hp7b, hOWNb, hp8b]

theorem minMaxStep_minPower_zero (m : ℕ) (s : Agg) (p : TrkPt)
    (hz : p.power = 0) :
    (minMaxStep m s p).minPower = s.minPower ∧
    (minMaxStep m s p).minPowerTrkPt = s.minPowerTrkPt := by
  simp only [minMaxStep, mmStepSums]
  have hown : ∀ t : Agg, (mmStepPower m t p).minPower = t.minPower ∧
      (mmStepPower m t p).minPowerTrkPt = t.minPowerTrkPt := by
    intro t
    simp only [mmStepPower, apply_ite (Agg.minPower), apply_ite (Agg.minPowerTrkPt)]
    split_ifs with h1 h2 h3 <;> simp_all
  have hp1a : ∀ t : Agg, (mmStepGain t p).minPower = t.minPower := by
    intro t
    simp only [mmStepGain, apply_ite (Agg.minPower)]
    split_ifs <;> rfl
  have hp1b : ∀ t : Agg, (mmStepGain t p).minPowerTrkPt = t.minPowerTrkPt := by
    intro t
    simp only [mmStepGain, apply_ite (Agg.minPowerTrkPt)]
    split_ifs <;> rfl
  have hp2a : ∀ t : Agg, (mmStepDeltaG t p).minPower = t.minPower := by
    intro t
    simp only [mmStepDeltaG, apply_ite (Agg.minPower)]
    split_ifs <;> rfl
  have hp2b : ∀ t : Agg, (mmStepDeltaG t p).minPowerTrkPt = t.minPowerTrkPt := by
    intro t
    simp only [mmStepDeltaG, apply_ite (Agg.minPowerTrkPt)]
    split_ifs <;> rfl
  have hp3a : ∀ t : Agg, (mmStepGrade t p).minPower = t.minPower := by
    intro t
    simp only [mmStepGrade, apply_ite (Agg.minPower)]
    split_ifs <;> rfl
  have hp3b : ∀ t : Agg, (mmStepGrade t p).minPowerTrkPt = t.minPowerTrkPt := by
    intro t
    simp only [mmStepGrade, apply_ite (Agg.minPowerTrkPt)]
    split_ifs <;> rfl
  have hp4a : ∀ t : Agg, (mmStepElev t p).minPower = t.minPower := by
    intro t
    simp only [mmStepElev, apply_ite (Agg.minPower)]
    split_ifs <;> rfl
  have hp4b : ∀ t : Agg, (mmStepElev t p).minPowerTrkPt = t.minPowerTrkPt := by
    intro t
    simp only [mmStepElev, apply_ite (Agg.minPowerTrkPt)]
    split_ifs <;> rfl
  have hp5a : ∀ t : Agg, (mmStepTemp m t p).minPower = t.minPower := by
    intro t
    simp only [mmStepTemp, apply_ite (Agg.minPower)]
    split_ifs <;> rfl
  have hp5b : ∀ t : Agg, (mmStepTemp m t p).minPowerTrkPt = t.minPowerTrkPt := by
    intro t
    simp only [mmStepTemp, apply_ite (Agg.minPowerTrkPt)]
    split_ifs <;> rfl
  have hp6a : ∀ t : Agg, (mmStepSpeed t p).minPower = t.minPower := by
    intro t
    simp only [mmStepSpeed, apply_ite (Agg.minPower)]
    split_ifs <;> rfl
  have hp6b : ∀ t : Agg, (mmStepSpeed t p).minPowerTrkPt = t.minPowerTrkPt := by
    intro t
    simp only [mmStepSpeed, apply_ite (Agg.minPowerTrkPt)]
    split_ifs <;> rfl
  have hp7a : ∀ t : Agg, (mmStepHR m t p).minPower = t.minPower := by
    intro t
    simp only [mmStepHR, apply_ite (Agg.minPower)]
    split_ifs <;> rfl
  have hp7b : ∀ t : Agg, (mmStepHR m t p).minPowerTrkPt = t.minPowerTrkPt := by
    intro t
    simp only [mmStepHR, apply_ite (Agg.minPowerTrkPt)]
    split_ifs <;> rfl
  have hp8a : ∀ t : Agg, (mmStepCadence m t p).minPower = t.minPower := by
    intro t
    simp only [mmStepCadence, apply_ite (Agg.minPower)]
    split_ifs <;> rfl
  have hp8b : ∀ t : Agg, (mmStepCadence m t p).minPowerTrkPt = t.minPowerTrkPt := by
    intro t
    simp only [mmStepCadence, apply_ite (Agg.minPowerTrkPt)]
    split_ifs <;> rfl
  have hOWNa : ∀ t : Agg, (mmStepPower m t p).minPower = t.minPower := fun t => (hown t).1
  have hOWNb : ∀ t : Agg, (mmStepPower m t p).minPowerTrkPt = t.minPowerTrkPt := fun t => (hown t).2
  constructor
  · rw [hp1a, hp2a, hp3a, hp4a, hp5a, hp6a, hOWNa, hp7a, hp8a]
  · rw [hp1b, hp2b, hp3b, hp4b, hp5b, hp6b, hOWNb, hp7b, hp8b]

theorem minMaxStep_minSpeed_zero (m : ℕ) (s : Agg) (p : TrkPt)
    (hz : p.speed = 0) :
    (minMaxStep m s p).minSpeed = s.minSpeed ∧
    (minMaxStep m s p).minSpeedTrkPt = s.minSpeedTrkPt := by
  simp only [minMaxStep, mmStepSums]
  have hown : ∀ t : Agg, (mmStepSpeed t p).minSpeed = t.minSpeed ∧
      (mmStepSpeed t p).minSpeedTrkPt = t.minSpeedTrkPt := by
    intro t
    simp only [mmStepSpeed, apply_ite (Agg.minSpeed), apply_ite (Agg.minSpeedTrkPt)]
    split_ifs with h1 h2 h3 <;> simp_all
  have hp1a : ∀ t : Agg, (mmStepGain t p).minSpeed = t.minSpeed := by
    intro t
    simp only [mmStepGain, apply_ite (Agg.minSpeed)]
    split_ifs <;> rfl
  have hp1b : ∀ t : Agg, (mmStepGain t p).minSpeedTrkPt = t.minSpeedTrkPt := by
    intro t
    simp only [mmStepGain, apply_ite (Agg.minSpeedTrkPt)]
    split_ifs <;> rfl
  have hp2a : ∀ t : Agg, (mmStepDeltaG t p).minSpeed = t.minSpeed := by
    intro t
    simp only [mmStepDeltaG, apply_ite (Agg.minSpeed)]
    split_ifs <;> rfl
  have hp2b : ∀ t : Agg, (mmStepDeltaG t p).minSpeedTrkPt = t.minSpeedTrkPt := by
    intro t
    simp only [mmStepDeltaG, apply_ite (Agg.minSpeedTrkPt)]
    split_ifs <;> rfl
  have hp3a : ∀ t : Agg, (mmStepGrade t p).minSpeed = t.minSpeed := by
    intro t
    simp only [mmStepGrade, apply_ite (Agg.minSpeed)]
    split_ifs <;> rfl
  have hp3b : ∀ t : Agg, (mmStepGrade t p).minSpeedTrkPt = t.minSpeedTrkPt := by
    intro t
    simp only [mmStepGrade, apply_ite (Agg.minSpeedTrkPt)]
    split_ifs <;> rfl
  have hp4a : ∀ t : Agg, (mmStepElev t p).minSpeed = t.minSpeed := by
    intro t
    simp only [mmStepElev, apply_ite (Agg.minSpeed)]
    split_ifs <;> rfl
  have hp4b : ∀ t : Agg, (mmStepElev t p).minSpeedTrkPt = t.minSpeedTrkPt := by
    intro t
    simp only [mmStepElev, apply_ite (Agg.minSpeedTrkPt)]
    split_ifs <;> rfl
  have hp5a : ∀ t : Agg, (mmStepTemp m t p).minSpeed = t.minSpeed := by
    intro t
    simp only [mmStepTemp, apply_ite (Agg.minSpeed)]
    split_ifs <;> rfl
  have hp5b : ∀ t : Agg, (mmStepTemp m t p).minSpeedTrkPt = t.minSpeedTrkPt := by
    intro t
    simp only [mmStepTemp, apply_ite (Agg.minSpeedTrkPt)]
    split_ifs <;> rfl
  have hp6a : ∀ t : Agg, (mmStepPower m t p).minSpeed = t.minSpeed := by
    intro t
    simp only [mmStepPower, apply_ite (Agg.minSpeed)]
    split_ifs <;> rfl
  have hp6b : ∀ t : Agg, (mmStepPower m t p).minSpeedTrkPt = t.minSpeedTrkPt := by
    intro t
    simp only [mmStepPower, apply_ite (Agg.minSpeedTrkPt)]
    split_ifs <;> rfl
  have hp7a : ∀ t : Agg, (mmStepHR m t p).minSpeed = t.minSpeed := by
    intro t
    simp only [mmStepHR, apply_ite (Agg.minSpeed)]
    split_ifs <;> rfl
  have hp7b : ∀ t : Agg, (mmStepHR m t p).minSpeedTrkPt = t.minSpeedTrkPt := by
    intro t
    simp only [mmStepHR, apply_ite (Agg.minSpeedTrkPt)]
    split_ifs <;> rfl
  have hp8a : ∀ t : Agg, (mmStepCadence m t p).minSpeed = t.minSpeed := by
    intro t
    simp only [mmStepCadence, apply_ite (Agg.minSpeed)]
    split_ifs <;> rfl
  have hp8b : ∀ t : Agg, (mmStepCadence m t p).minSpeedTrkPt = t.minSpeedTrkPt := by
    intro t
    simp only [mmStepCadence, apply_ite (Agg.minSpeedTrkPt)]
    split_ifs <;> rfl
  have hOWNa : ∀ t : Agg, (mmStepSpeed t p).minSpeed = t.minSpeed := fun t => (hown t).1
  have hOWNb : ∀ t : Agg, (mmStepSpeed t p).minSpeedTrkPt = t.minSpeedTrkPt := fun t => (hown t).2
  constructor
  · rw [hp1a, hp2a, hp3a, hp4a, hp5a, hOWNa, hp6a, hp7a, hp8a]
  · rw [hp1b, hp2b, hp3b, hp4b, hp5b, hOWNb, hp6b, hp7b, hp8b]
theorem minMaxStep_minElev_upd (m : ℕ) (s : Agg) (p : TrkPt)
    (hmax : ¬ p.elevation > s.maxElev) (hmin : p.elevation < s.minElev) :
    (minMaxStep m s p).minElev = p.elevation := by
  simp only [minMaxStep, mmStepSums]
  have hi1a : ∀ t : Agg, (mmStepTemp m t p).maxElev = t.maxElev := by
    intro t
    simp only [mmStepTemp, apply_ite (Agg.maxElev)]
    split_ifs <;> rfl
  have hi1b : ∀ t : Agg, (mmStepTemp m t p).minElev = t.minElev := by
    intro t
    simp only [mmStepTemp, apply_ite (Agg.minElev)]
    split_ifs <;> rfl
  have hi2a : ∀ t : Agg, (mmStepSpeed t p).maxElev = t.maxElev := by
    intro t
    simp only [mmStepSpeed, apply_ite (Agg.maxElev)]
    split_ifs <;> rfl
  have hi2b : ∀ t : Agg, (mmStepSpeed t p).minElev = t.minElev := by
    intro t
    simp only [mmStepSpeed, apply_ite (Agg.minElev)]
    split_ifs <;> rfl
  have hi3a : ∀ t : Agg, (mmStepPower m t p).maxElev = t.maxElev := by
    intro t
    simp only [mmStepPower, apply_ite (Agg.maxElev)]
    split_ifs <;> rfl
  have hi3b : ∀ t : Agg, (mmStepPower m t p).minElev = t.minElev := by
    intro t
    simp only [mmStepPower, apply_ite (Agg.minElev)]
    split_ifs <;> rfl
  have hi4a : ∀ t : Agg, (mmStepHR m t p).maxElev = t.maxElev := by
    intro t
    simp only [mmStepHR, apply_ite (Agg.maxElev)]
    split_ifs <;> rfl
  have hi4b : ∀ t : Agg, (mmStepHR m t p).minElev = t.minElev := by
    intro t
    simp only [mmStepHR, apply_ite (Agg.minElev)]
    split_ifs <;> rfl
  have hi5a : ∀ t : Agg, (mmStepCadence m t p).maxElev = t.maxElev := by
    intro t
    simp only [mmStepCadence, apply_ite (Agg.maxElev)]
    split_ifs <;> rfl
  have hi5b : ∀ t : Agg, (mmStepCadence m t p).minElev = t.minElev := by
    intro t
    simp only [mmStepCadence, apply_ite (Agg.minElev)]
    split_ifs <;> rfl
  have hmaxT : (mmStepTemp m (mmStepSpeed (mmStepPower m (mmStepHR m (mmStepCadence m s p) p) p) p) p).maxElev = s.maxElev := by
    rw [hi1a, hi2a, hi3a, hi4a, hi5a]
  have hminT : (mmStepTemp m (mmStepSpeed (mmStepPower m (mmStepHR m (mmStepCadence m s p) p) p) p) p).minElev = s.minElev := by
    rw [hi1b, hi2b, hi3b, hi4b, hi5b]
  have howner : (mmStepElev (mmStepTemp m (mmStepSpeed (mmStepPower m (mmStepHR m (mmStepCadence m s p) p) p) p) p) p).minElev = p.elevation := by
    simp only [mmStepElev, apply_ite (Agg.minElev)]
    rw [if_neg (by rw [hmaxT]; exact hmax), if_pos (by rw [hminT]; exact hmin)]
  have ho1 : ∀ t : Agg, (mmStepGain t p).minElev = t.minElev := by
    intro t
    simp only [mmStepGain, apply_ite (Agg.minElev)]
    split_ifs <;> rfl
  have ho2 : ∀ t : Agg, (mmStepDeltaG t p).minElev = t.minElev := by
    intro t
    simp only [mmStepDeltaG, apply_ite (Agg.minElev)]
    split_ifs <;> rfl
  have ho3 : ∀ t : Agg, (mmStepGrade t p).minElev = t.minElev := by
    intro t
    simp only [mmStepGrade, apply_ite (Agg.minElev)]
    split_ifs <;> rfl
  rw [ho1, ho2, ho3]
  exact howner

theorem minMaxStep_minGrade_upd (m : ℕ) (s : Agg) (p : TrkPt)
    (hmax : ¬ p.grade > s.maxGrade) (hmin : p.grade < s.minGrade) :
    (minMaxStep m s p).minGrade = p.grade := by
  simp only [minMaxStep, mmStepSums]
  have hi1a : ∀ t : Agg, (mmStepElev t p).maxGrade = t.maxGrade := by
    intro t
    simp only [mmStepElev, apply_ite (Agg.maxGrade)]
    split_ifs <;> rfl
  have hi1b : ∀ t : Agg, (mmStepElev t p).minGrade = t.minGrade := by
    intro t
    simp only [mmStepElev, apply_ite (Agg.minGrade)]
    split_ifs <;> rfl
  have hi2a : ∀ t : Agg, (mmStepTemp m t p).maxGrade = t.maxGrade := by
    intro t
    simp only [mmStepTemp, apply_ite (Agg.maxGrade)]
    split_ifs <;> rfl
  have hi2b : ∀ t : Agg, (mmStepTemp m t p).minGrade = t.minGrade := by
    intro t
    simp only [mmStepTemp, apply_ite (Agg.minGrade)]
    split_ifs <;> rfl
  have hi3a : ∀ t : Agg, (mmStepSpeed t p).maxGrade = t.maxGrade := by
    intro t
    simp only [mmStepSpeed, apply_ite (Agg.maxGrade)]
    split_ifs <;> rfl
  have hi3b : ∀ t : Agg, (mmStepSpeed t p).minGrade = t.minGrade := by
    intro t
    simp only [mmStepSpeed, apply_ite (Agg.minGrade)]
    split_ifs <;> rfl
  have hi4a : ∀ t : Agg, (mmStepPower m t p).maxGrade = t.maxGrade := by
    intro t
    simp only [mmStepPower, apply_ite (Agg.maxGrade)]
    split_ifs <;> rfl
  have hi4b : ∀ t : Agg, (mmStepPower m t p).minGrade = t.minGrade := by
    intro t
    simp only [mmStepPower, apply_ite (Agg.minGrade)]
    split_ifs <;> rfl
  have hi5a : ∀ t : Agg, (mmStepHR m t p).maxGrade = t.maxGrade := by
    intro t
    simp only [mmStepHR, apply_ite (Agg.maxGrade)]
    split_ifs <;> rfl
  have hi5b : ∀ t : Agg, (mmStepHR m t p).minGrade = t.minGrade := by
    intro t
    simp only [mmStepHR, apply_ite (Agg.minGrade)]
    split_ifs <;> rfl
  have hi6a : ∀ t : Agg, (mmStepCadence m t p).maxGrade = t.maxGrade := by
    intro t
    simp only [mmStepCadence, apply_ite (Agg.maxGrade)]
    split_ifs <;> rfl
  have hi6b : ∀ t : Agg, (mmStepCadence m t p).minGrade = t.minGrade := by
    intro t
    simp only [mmStepCadence, apply_ite (Agg.minGrade)]
    split_ifs <;> rfl
  have hmaxT : (mmStepElev (mmStepTemp m (mmStepSpeed (mmStepPower m (mmStepHR m (mmStepCadence m s p) p) p) p) p) p).maxGrade = s.maxGrade := by
    rw [hi1a, hi2a, hi3a, hi4a, hi5a, hi6a]
  have hminT : (mmStepElev (mmStepTemp m (mmStepSpeed (mmStepPower m (mmStepHR m (mmStepCadence m s p) p) p) p) p) p).minGrade = s.minGrade := by
    rw [hi1b, hi2b, hi3b, hi4b, hi5b, hi6b]
  have howner : (mmStepGrade (mmStepElev (mmStepTemp m (mmStepSpeed (mmStepPower m (mmStepHR m (mmStepCadence m s p) p) p) p) p) p) p).minGrade = p.grade := by
    simp only [mmStepGrade, apply_ite (Agg.minGrade)]
    rw [if_neg (by rw [hmaxT]; exact hmax), if_pos (by rw [hminT]; exact hmin)]
  have ho1 : ∀ t : Agg, (mmStepGain t p).minGrade = t.minGrade := by
    intro t
    simp only [mmStepGain, apply_ite (Agg.minGrade)]
    split_ifs <;> rfl
  have ho2 : ∀ t : Agg, (mmStepDeltaG t p).minGrade = t.minGrade := by
    intro t
    simp only [mmStepDeltaG, apply_ite (Agg.minGrade)]
    split_ifs <;> rfl
  rw [ho1, ho2]
  exact howner

/-- Claim C7 (amended): in one `compMinMax` step, a zero cadence,
heart rate, power — or speed — never updates the corresponding minimum
(or its point back-reference), while elevation and grade minima are
updated by any value strictly below the running minimum (when the
maximum branch does not shadow the update), with no zero exclusion.
The unamended claim fails for speed: the source's minimum-speed branch
also tests `p2->speed != 0` (see the counterexample). -/
theorem claimC7 (m : ℕ) (s : Agg) (p : TrkPt) :
    (p.cadence = 0 → (minMaxStep m s p).minCadence = s.minCadence ∧
      (minMaxStep m s p).minCadenceTrkPt = s.minCadenceTrkPt) ∧
    (p.heartRate = 0 → (minMaxStep m s p).minHeartRate = s.minHeartRate ∧
      (minMaxStep m s p).minHeartRateTrkPt = s.minHeartRateTrkPt) ∧
    (p.power = 0 → (minMaxStep m s p).minPower = s.minPower ∧
      (minMaxStep m s p).minPowerTrkPt = s.minPowerTrkPt) ∧
    (p.speed = 0 → (minMaxStep m s p).minSpeed = s.minSpeed ∧
      (minMaxStep m s p).minSpeedTrkPt = s.minSpeedTrkPt) ∧
    (¬ p.elevation > s.maxElev → p.elevation < s.minElev →
      (minMaxStep m s p).minElev = p.elevation) ∧
    (¬ p.grade > s.maxGrade → p.grade < s.minGrade →
      (minMaxStep m s p).minGrade = p.grade) :=
  ⟨fun h => minMaxStep_minCadence_zero m s p h,
   fun h => minMaxStep_minHeartRate_zero m s p h,
   fun h => minMaxStep_minPower_zero m s p h,
   fun h => minMaxStep_minSpeed_zero m s p h,
   fun h1 h2 => minMaxStep_minElev_upd m s p h1 h2,
   fun h1 h2 => minMaxStep_minGrade_upd m s p h1 h2⟩

/-- Claim C7 (counterexample): on a track whose third point has
speed 0 (below the previous minimum candidate 5), the aggregation pass
leaves `minSpeed` at its seed 999.9 and never records a minimum-speed
point: the zero speed did not participate in min-tracking. -/
theorem claimC7_counterexample :
    (compMinMax 0 agg0 c7Pts).minSpeed = 9999/10 ∧
    (compMinMax 0 agg0 c7Pts).minSpeedTrkPt = none ∧
    (∃ q ∈ c7Pts.drop 1, q.speed = 0) ∧ (9999/10 : ℚ) ≠ 0 := by
  refine ⟨?_, ?_, ?_, by norm_num⟩
  · norm_num [compMinMax, minMaxStep, mmStepCadence, mmStepHR, mmStepPower,
      mmStepSpeed, mmStepTemp, mmStepElev, mmStepGrade, mmStepDeltaG,
      mmStepGain, mmStepSums, initAgg, agg0, c7Pts, newTrkPt, SD_CADENCE,
      SD_HR, SD_POWER, SD_ATEMP, nilSpeed, nilGrade, nilElev,
      (show ∀ k : ℕ, Nat.land 0 k = 0 from fun k => Nat.zero_and k)]
  · norm_num [compMinMax, minMaxStep, mmStepCadence, mmStepHR, mmStepPower,
      mmStepSpeed, mmStepTemp, mmStepElev, mmStepGrade, mmStepDeltaG,
      mmStepGain, mmStepSums, initAgg, agg0, c7Pts, newTrkPt, SD_CADENCE,
      SD_HR, SD_POWER, SD_ATEMP, nilSpeed, nilGrade, nilElev,
      (show ∀ k : ℕ, Nat.land 0 k = 0 from fun k => Nat.zero_and k)]
  · refine ⟨c7Pts.get ⟨2, by norm_num [c7Pts]⟩, by
      norm_num [c7Pts]
      , by norm_num [c7Pts, newTrkPt]⟩

theorem foldMinMax_cadence (m : ℕ) :
    ∀ (rest : List TrkPt) (s : Agg),
      (rest.foldl (minMaxStep m) s).cadence =
        s.cadence + ((rest.map (·.cadence)).sum)
  | [], s => by simp
  | p :: tl, s => by
      simp only [List.foldl_cons, List.map_cons, List.sum_cons]
      rw [foldMinMax_cadence m tl, minMaxStep_cadence]
      ring

theorem foldMinMax_heartRate (m : ℕ) :
    ∀ (rest : List TrkPt) (s : Agg),
      (rest.foldl (minMaxStep m) s).heartRate =
        s.heartRate + ((rest.map (·.heartRate)).sum)
  | [], s => by simp
  | p :: tl, s => by
      simp only [List.foldl_cons, List.map_cons, List.sum_cons]
      rw [foldMinMax_heartRate m tl, minMaxStep_heartRate]
      ring

theorem foldMinMax_power (m : ℕ) :
    ∀ (rest : List TrkPt) (s : Agg),
      (rest.foldl (minMaxStep m) s).power =
        s.power + ((rest.map (·.power)).sum)
  | [], s => by simp
  | p :: tl, s => by
      simp only [List.foldl_cons, List.map_cons, List.sum_cons]
      rw [foldMinMax_power m tl, minMaxStep_powerSum]
      ring

theorem foldMinMax_temp (m : ℕ) :
    ∀ (rest : List TrkPt) (s : Agg),
      (rest.foldl (minMaxStep m) s).temp =
        s.temp + ((rest.map (·.ambTemp)).sum)
  | [], s => by simp
  | p :: tl, s => by
      simp only [List.foldl_cons, List.map_cons, List.sum_cons]
      rw [foldMinMax_temp m tl, minMaxStep_tempSum]
      ring

theorem foldMinMax_grade (m : ℕ) :
    ∀ (rest : List TrkPt) (s : Agg),
      (rest.foldl (minMaxStep m) s).grade =
        s.grade + ((rest.map (·.grade)).sum)
  | [], s => by simp
  | p :: tl, s => by
      simp only [List.foldl_cons, List.map_cons, List.sum_cons]
      rw [foldMinMax_grade m tl, minMaxStep_gradeSum]
      ring

theorem foldMinMax_elevGain (m : ℕ) :
    ∀ (rest : List TrkPt) (s : Agg),
      (rest.foldl (minMaxStep m) s).elevGain =
        s.elevGain + ((rest.map (fun x => if x.rise ≥ 0 then x.rise else 0)).sum)
  | [], s => by simp
  | p :: tl, s => by
      simp only [List.foldl_cons, List.map_cons, List.sum_cons]
      rw [foldMinMax_elevGain m tl, minMaxStep_elevGain]
      ring

theorem foldMinMax_elevLoss (m : ℕ) :
    ∀ (rest : List TrkPt) (s : Agg),
      (rest.foldl (minMaxStep m) s).elevLoss =
        s.elevLoss + ((rest.map (fun x => if x.rise ≥ 0 then 0 else -x.rise)).sum)
  | [], s => by simp
  | p :: tl, s => by
      simp only [List.foldl_cons, List.map_cons, List.sum_cons]
      rw [foldMinMax_elevLoss m tl, minMaxStep_elevLoss]
      ring

/-- Claim C10 (confirmed): `compMinMax` reads only the second through
last points: its whole result is unchanged when the first point is
replaced by any other point, and the averaging sums and elevation
gain/loss accumulate exactly over the tail. -/
theorem claimC10 (m : ℕ) (s : Agg) (p q : TrkPt) (rest : List TrkPt) :
    compMinMax m s (p :: rest) = compMinMax m s (q :: rest) ∧
    (compMinMax m s (p :: rest)).cadence =
      s.cadence + ((rest.map (·.cadence)).sum) ∧
    (compMinMax m s (p :: rest)).heartRate =
      s.heartRate + ((rest.map (·.heartRate)).sum) ∧
    (compMinMax m s (p :: rest)).power =
      s.power + ((rest.map (·.power)).sum) ∧
    (compMinMax m s (p :: rest)).temp =
      s.temp + ((rest.map (·.ambTemp)).sum) ∧
    (compMinMax m s (p :: rest)).grade =
      s.grade + ((rest.map (·.grade)).sum) ∧
    (compMinMax m s (p :: rest)).elevGain =
      s.elevGain + ((rest.map (fun x => if x.rise ≥ 0 then x.rise else 0)).sum) ∧
    (compMinMax m s (p :: rest)).elevLoss =
      s.elevLoss + ((rest.map (fun x => if x.rise ≥ 0 then 0 else -x.rise)).sum) := by
  refine ⟨rfl, ?_, ?_, ?_, ?_, ?_, ?_, ?_⟩ <;> simp only [compMinMax]
  · rw [foldMinMax_cadence m rest (initAgg s)]
    rfl
  · rw [foldMinMax_heartRate m rest (initAgg s)]
    rfl
  · rw [foldMinMax_power m rest (initAgg s)]
    rfl
  · rw [foldMinMax_temp m rest (initAgg s)]
    rfl
  · rw [foldMinMax_grade m rest (initAgg s)]
    rfl
  · rw [foldMinMax_elevGain m rest (initAgg s)]
    rfl
  · rw [foldMinMax_elevLoss m rest (initAgg s)]
    rfl

theorem haversine_core (x y z : ℝ) :
    0 ≤ Real.sin ((y - x) / 2) * Real.sin ((y - x) / 2) +
      Real.cos x * Real.cos y * (Real.sin (z / 2) * Real.sin (z / 2)) := by
  have hs : Real.sin ((y - x) / 2) * Real.sin ((y - x) / 2) =
      (1 - Real.cos (y - x)) / 2 := by
    have h := Real.sin_sq_eq_half_sub ((y - x) / 2)
    rw [show 2 * ((y - x) / 2) = y - x by ring] at h
    nlinarith [h]
  have hs2 : Real.sin (z / 2) * Real.sin (z / 2) = (1 - Real.cos z) / 2 := by
    have h := Real.sin_sq_eq_half_sub (z / 2)
    rw [show 2 * (z / 2) = z by ring] at h
    nlinarith [h]
  have hc : Real.cos x * Real.cos y =
      (Real.cos (y - x) + Real.cos (x + y)) / 2 := by
    have h1 := Real.cos_sub y x
    have h2 := Real.cos_add x y
    linear_combination (-h1 - h2) / 2
  rw [hs, hs2, hc]
  have c1 : Real.cos (y - x) ≤ 1 := Real.cos_le_one _
  have c2 : (-1 : ℝ) ≤ Real.cos (x + y) := Real.neg_one_le_cos _
  have c3 : Real.cos z ≤ 1 := Real.cos_le_one _
  have c4 : (-1 : ℝ) ≤ Real.cos z := Real.neg_one_le_cos _
  nlinarith [mul_nonneg (by linarith : (0:ℝ) ≤ 1 - (1 - Real.cos z) / 2)
      (by linarith : (0:ℝ) ≤ 1 - Real.cos (y - x)),
    mul_nonneg (by linarith : (0:ℝ) ≤ (1 - Real.cos z) / 2)
      (by linarith : (0:ℝ) ≤ 1 + Real.cos (x + y))]

theorem haversineH_nonneg (p1 p2 : TrkPt) : 0 ≤ haversineH p1 p2 := by
  simp only [haversineH]
  exact haversine_core ((p1.latitude : ℝ) * (degToRad : ℝ))
    ((p2.latitude : ℝ) * (degToRad : ℝ))
    (((p2.longitude : ℝ) - (p1.longitude : ℝ)) * (degToRad : ℝ))

/-- Claim C8 (confirmed): in exact arithmetic the intermediate
haversine value is provably non-negative for every pair of input
points, so `compDistance` never fails its radicand guard (the source
guards with `assert(h >= 0.0)` rather than a clamp — under exact
arithmetic the two behave identically, the guard never fires) and the
returned great-circle distance is non-negative. -/
theorem claimC8 (p1 p2 : TrkPt) :
    ∃ d : ℝ, compDistance p1 p2 = some d ∧ 0 ≤ d := by
  have h0 := haversineH_nonneg p1 p2
  refine ⟨2 * (earthMeanRadius : ℝ) * Real.arcsin (Real.sqrt (haversineH p1 p2)),
    ?_, ?_⟩
  · simp only [compDistance, if_neg (not_lt.mpr h0)]
  · have ha : 0 ≤ Real.arcsin (Real.sqrt (haversineH p1 p2)) :=
      Real.arcsin_nonneg.mpr (Real.sqrt_nonneg _)
    have hR : (0:ℝ) ≤ 2 * (earthMeanRadius : ℝ) := by
      norm_num [earthMeanRadius]
    exact mul_nonneg hR ha

theorem checkGo_verbatim (pArgs : CmdArgs) (hv : pArgs.verbatim = true) :
    ∀ (tl : List TrkPt) (p1 : TrkPt) (out : List TrkPt) (d dc : ℕ),
      checkGo pArgs p1 tl = .ok (out, d, dc) → out = tl ∧ d = 0 ∧ dc = 0
  | [], p1, out, d, dc, h => by
      rw [checkGo] at h
      cases h
      exact ⟨rfl, rfl, rfl⟩
  | p2 :: tl, p1, out, d, dc, h => by
      rw [checkGo] at h
      by_cases hf : fatalTrkPt pArgs p2
      · rw [if_pos hf] at h
        exact Except.noConfusion h
      · rw [if_neg hf] at h
        have hnv : pArgs.verbatim ≠ false := by
          rw [hv]
          simp
        have h1 : ¬ dupDisc pArgs p1 p2 := fun hh => hnv hh.1
        have h2 : ¬ tsDisc pArgs p1 p2 := fun hh => hnv hh.1
        have h3 : ¬ distDisc pArgs p1 p2 := fun hh => hnv hh.1
        rw [if_neg h1, if_neg h2, if_neg h3] at h
        rw [if_neg (by norm_num)] at h
        rcases hrec : checkGo pArgs p2 tl with u | ⟨out1, d1, dc1⟩
        · rw [hrec] at h
          exact Except.noConfusion h
        · rw [hrec] at h
          dsimp only at h
          cases h
          have ih := checkGo_verbatim pArgs hv tl p2 _ _ _ hrec
          exact ⟨by rw [ih.1], ih.2.1, ih.2.2⟩

theorem limitGrade_verbatim (pArgs : CmdArgs) (b : Bool) :
    ∀ l : List TrkPt,
      limitGrade { pArgs with verbatim := b } l = limitGrade pArgs l := by
  have hgo : ∀ (l : List TrkPt) (p1 : TrkPt),
      limitGradeGo { pArgs with verbatim := b } p1 l =
        limitGradeGo pArgs p1 l := by
    intro l
    induction l with
    | nil => intro p1; rfl
    | cons p2 tl ih =>
        intro p1
        rw [limitGradeGo, limitGradeGo]
        have hstep : limitGradeStep { pArgs with verbatim := b } p1 p2 =
            limitGradeStep pArgs p1 p2 := rfl
        rw [hstep, ih]
  intro l
  match l with
  | [] => rfl
  | p1 :: tl =>
      rw [limitGrade, limitGrade, hgo]

theorem smoothMetric_verbatim (pArgs : CmdArgs) (b : Bool) :
    ∀ l : List TrkPt,
      smoothMetric { pArgs with verbatim := b } l = smoothMetric pArgs l := by
  have hgo : ∀ (l revDone : List TrkPt),
      smoothGo { pArgs with verbatim := b } revDone l =
        smoothGo pArgs revDone l := by
    intro l
    induction l with
    | nil => intro revDone; rfl
    | cons p2 tl ih =>
        intro revDone
        rw [smoothGo, smoothGo]
        have hq : (if pointWithinRange { pArgs with verbatim := b } p2 then
            compMovAvgPt { pArgs with verbatim := b }.xmaMethod
              { pArgs with verbatim := b }.xmaMetric
              { pArgs with verbatim := b }.xmaWindow revDone p2 tl
          else p2) = (if pointWithinRange pArgs p2 then
            compMovAvgPt pArgs.xmaMethod pArgs.xmaMetric pArgs.xmaWindow
              revDone p2 tl else p2) := rfl
        rw [hq, ih]
  intro l
  match l with
  | [] => rfl
  | p1 :: tl => rw [smoothMetric, smoothMetric, hgo]

theorem adjElev_verbatim (sqrtFn : ℚ → ℚ) (pArgs : CmdArgs) (b : Bool) :
    ∀ l : List TrkPt,
      adjElev sqrtFn { pArgs with verbatim := b } l = adjElev sqrtFn pArgs l := by
  have hgo : ∀ (l : List TrkPt) (p1 : TrkPt),
      adjElevGo sqrtFn { pArgs with verbatim := b } p1 l =
        adjElevGo sqrtFn pArgs p1 l := by
    intro l
    induction l with
    | nil => intro p1; rfl
    | cons p2 tl ih =>
        intro p1
        rw [adjElevGo, adjElevGo]
        have hr : (if pointWithinRange { pArgs with verbatim := b } p2 ∧
              p2.adjGrade = true then adjElevation sqrtFn p1 p2
            else (p2, false)) = (if pointWithinRange pArgs p2 ∧
              p2.adjGrade = true then adjElevation sqrtFn p1 p2
            else (p2, false)) := rfl
        rw [hr, ih]
  intro l
  match l with
  | [] => rfl
  | p1 :: tl => rw [adjElev, adjElev, hgo]

theorem postMetricsStages_verbatim (sqrtFn : ℚ → ℚ) (pArgs : CmdArgs)
    (b : Bool) (l : List TrkPt) :
    postMetricsStages sqrtFn { pArgs with verbatim := b } l =
      postMetricsStages sqrtFn pArgs l := by
  simp only [postMetricsStages, limitGrade_verbatim, smoothMetric_verbatim,
    adjElev_verbatim]

/-- Claim C9 (amended): the verbatim flag disables exactly the cleanup
discards — under `--verbatim` a successful `checkTrkPts` returns the
point list unchanged with both counters zero — while the correction
stages `main` runs after `compMetrics` (grade limiting, non-elevation
smoothing, elevation reconciliation) ignore the flag entirely: their
combined result is invariant under any change of the verbatim flag.
The unamended claim fails because those corrections, and trimming, run
regardless of `--verbatim` whenever configured (see the
counterexample). -/
theorem claimC9 (pArgs : CmdArgs) (l out : List TrkPt) (d dc : ℕ)
    (sqrtFn : ℚ → ℚ) (b : Bool) (l2 : List TrkPt)
    (hv : pArgs.verbatim = true)
    (h : checkTrkPts pArgs l = .ok (out, d, dc)) :
    (out = l ∧ d = 0 ∧ dc = 0) ∧
    postMetricsStages sqrtFn { pArgs with verbatim := b } l2 =
      postMetricsStages sqrtFn pArgs l2 := by
  refine ⟨?_, postMetricsStages_verbatim sqrtFn pArgs b l2⟩
  match l with
  | [] =>
    rw [checkTrkPts] at h
    cases h
    exact ⟨rfl, rfl, rfl⟩
  | p1 :: tl =>
    rw [checkTrkPts] at h
    rcases hrec : checkGo pArgs p1 tl with u | ⟨out1, d1, dc1⟩
    · rw [hrec] at h
      exact Except.noConfusion h
    · rw [hrec] at h
      dsimp only at h
      cases h
      have ih := checkGo_verbatim pArgs hv tl p1 _ _ _ hrec
      exact ⟨by rw [ih.1], ih.2.1, ih.2.2⟩

/-- Claim C9 (counterexample): with `--verbatim --max-grade 5
--no-elev-adj`, the pipeline stages after `compMetrics` still clamp the
second point's grade from 10 to 5: verbatim does not disable grade
limiting. -/
theorem claimC9_counterexample :
    c9Args.verbatim = true ∧
    c9Pts.map (·.grade) = [0, 10] ∧
    (postMetricsStages (fun _ => 0) c9Args c9Pts).map (·.grade) = [0, 5] ∧
    ((5 : ℚ) ≠ 10) := by
  refine ⟨rfl, ?_, ?_, by norm_num⟩
  · norm_num [c9Pts, newTrkPt]
  · norm_num [postMetricsStages, limitGrade, limitGradeGo, limitGradeStep,
      adjMaxGrade, adjMinGrade, adjGradeChange, pointWithinRange, adjElev,
      smoothMetric, c9Args, c9Pts, defaultArgs, newTrkPt, nilGrade]

/-- Claim C9 (witness): the amended theorem applied to the concrete
verbatim run of the counterexample track. -/
theorem claimC9_witness :
    c9Args.verbatim = true ∧
    checkTrkPts c9Args c9Pts = .ok (c9Pts, 0, 0) ∧
    ((c9Pts = c9Pts ∧ (0:ℕ) = 0 ∧ (0:ℕ) = 0) ∧
      postMetricsStages (fun _ => 0) { c9Args with verbatim := false } c9Pts =
        postMetricsStages (fun _ => 0) c9Args c9Pts) := by
  have hok : checkTrkPts c9Args c9Pts = .ok (c9Pts, 0, 0) := by
    norm_num [checkTrkPts, checkGo, fatalTrkPt, dupDisc, dupCond, tsDisc,
      distDisc, c9Args, c9Pts, defaultArgs, newTrkPt, nilElev, nilSpeed]
  exact ⟨rfl, hok,
    claimC9 c9Args c9Pts c9Pts 0 0 (fun _ => 0) false c9Pts rfl hok⟩

end ActFileTool
